import Mathlib

/-!
Verification development for the Angular language-service TypeScript host
(`packages/language-service/src/typescript_host.ts`).

The development shallowly embeds the parts of `typescript_host.ts` that the
checked properties are about:

* the symbol abstraction layer (`TypeWrapper`, `PipeSymbol.selectSignature`,
  `TypeScriptSymbolQuery.getTypeUnion` / `getNonNullableType` /
  `getBuiltinType`, `MapSymbolTable`);
* the template locator (`findNode`, `getTemplateClassDeclFromNode`,
  `getSourceFromNode`, `spanOf`, `shrink`);
* the invalidation machinery of `TypeScriptServiceHost` (`validate`,
  `clearCaches`, `ensureAnalyzedModules`, `getAnalyzedModules`,
  `updateAnalyzedModules`, `ensureTemplateMap`, `getTemplateReferences`);
* declaration collection with its error channel (`getDeclarations`,
  `getDeclarationFromNode`, `collectError`, `getCollectedErrors`, `spanAt`).

External collaborators (the TypeScript program, type checker, script
versioning host and the Angular compiler metadata resolver) are modelled as
explicit environment records passed to the embedded functions, with the
behaviour of the checker and resolver supplied as parameters.  JavaScript
object identity of `ts.Type` values (reference equality used by
`getNonNullableType` and by `Array.prototype.indexOf`) is modelled by an
explicit numeric object identity carried on the modelled values.
-/

/-! ## Association-list helpers

JavaScript `Map` objects preserve insertion order; the embedding represents
them as association lists in insertion order.  `alookup` is `Map.get`,
`alistSet` is `Map.set` (updating an existing key in place, appending a new
one). -/

/-- Lookup of a key in an insertion-ordered association list (`Map.get`). -/
def alookup {α : Type} {β : Type} [DecidableEq α] : List (α × β) → α → Option β
  | [], _ => none
  | (k, v) :: rest, key => if k = key then some v else alookup rest key

/-- Overwrite every entry whose key is `k` with `(k, v)` (the in-place update
part of `Map.set`). -/
def aoverwrite {α : Type} {β : Type} [DecidableEq α] (l : List (α × β)) (k : α) (v : β) :
    List (α × β) :=
  l.map (fun p => if p.1 = k then (k, v) else p)

/-- Update-or-append of a key in an insertion-ordered association list
(`Map.set`): an existing key keeps its position, a new key is appended. -/
def alistSet {α : Type} {β : Type} [DecidableEq α] (l : List (α × β)) (k : α) (v : β) :
    List (α × β) :=
  if (alookup l k).isSome then aoverwrite l k v else l ++ [(k, v)]

/-! ## Spans

A `Span` models the `Span` record `{start, end}` of linear character offsets;
the field `end` is rendered as `stop` because `end` is a reserved word here. -/

/-- Character-offset range of a lexical node (`{start: number, end: number}`);
`stop` stands for the source field `end`. -/
structure Span where
  start : Nat
  stop : Nat
deriving DecidableEq, Repr

/-- Model of `shrink(span, offset?)`: with no offset given the span is shrunk
by one character at each end (`offset == null` defaults the offset to 1). -/
def shrink (span : Span) (offset : Option Nat) : Span :=
  match offset with
  | none => { start := span.start + 1, stop := span.stop - 1 }
  | some o => { start := span.start + o, stop := span.stop - o }

/-! ## The checker-type model

A `ts.Type` as seen by this file is: an optional symbol name (`type.symbol`
may be `undefined`), optional type arguments (`(type as any).typeArguments`),
and the return types of its call signatures (the only part of a
`ts.Signature` this development needs; parameter lists are never inspected by
the embedded operations).  `objId` models JavaScript object identity, which
`getNonNullableType` compares with `!=`. -/

/-- Model of a `ts.Type` reference. -/
inductive TsType where
  | mk (objId : Nat) (symName : Option String) (typeArguments : Option (List TsType))
      (sigReturns : List TsType)

/-- Object identity of the checker type (JavaScript reference equality). -/
def TsType.objId : TsType → Nat
  | .mk i _ _ _ => i

/-- Name of `type.symbol`, when the type has a symbol. -/
def TsType.symName : TsType → Option String
  | .mk _ n _ _ => n

/-- The `typeArguments` array, `none` when absent. -/
def TsType.typeArguments : TsType → Option (List TsType)
  | .mk _ _ a _ => a

/-- Return types of `type.getCallSignatures()`, in order. -/
def TsType.sigReturns : TsType → List TsType
  | .mk _ _ _ s => s

/-- Model of the enum `BuiltinType` from `./types` consumed by this file. -/
inductive BuiltinType where
  | Any
  | Boolean
  | Null
  | Number
  | String
  | Undefined
  | Unbound
  | Other
deriving DecidableEq, Repr

/-- Behaviour of the external `ts.TypeChecker` as used by the symbol layer:
`builtin` is `getBuiltinTypeFromTs` (the synthetic-node trick asking the
checker for a literal type), `getNonNullableType` is the checker method of
the same name, and `hasGetNonNullableType` models the TypeScript-version
feature test `typeof checker.getNonNullableType == 'function'`. -/
structure CheckerEnv where
  builtin : BuiltinType → TsType
  getNonNullableType : TsType → TsType
  hasGetNonNullableType : Bool

/-- Model of the `Symbol` values flowing through the query layer: either a
`TypeWrapper` around a checker type, or any of the other `Symbol`
implementations (`SymbolWrapper`, `DeclaredSymbol`, `PipeSymbol`), which the
`instanceof TypeWrapper` tests distinguish. -/
inductive NgSymbol where
  | typeWrapper (tsType : TsType)
  | otherSymbol (tag : Nat)

/-- Model of `TypeWrapper.name`: the symbol name, or the anonymous marker
when the checker type carries no symbol. -/
def typeWrapperName (t : TsType) : String :=
  t.symName.getD "<anonymous>"

/-- Model of `getTypeParameterOf(type, name)`: the single type argument of a
type whose symbol has the given name; `undefined` when the symbol name
differs, when there are no `typeArguments`, or when there is more than one
type argument. -/
def getTypeParameterOf (type : TsType) (name : String) : Option TsType :=
  if type.symName = some name then
    match type.typeArguments with
    | some args => if args.length ≤ 1 then args[0]? else none
    | none => none
  else none

/-- Model of the `Signature` values this file constructs: `fromChecker` is
`SignatureWrapper` (represented by the wrapped signature's return type) and
`resultOverride` is `SignatureResultOverride`, whose base signature may be
the `undefined` fed through the non-null assertion in
`PipeSymbol.selectSignature`. -/
inductive NgSignature where
  | fromChecker (returnType : TsType)
  | resultOverride (base : Option NgSignature) (resultType : TsType)

/-- Model of `Signature.result` (`SignatureWrapper.result` returns the
signature's return type; `SignatureResultOverride.result` returns the
override). -/
def NgSignature.result : NgSignature → TsType
  | .fromChecker r => r
  | .resultOverride _ r => r

/-- Model of the free function `selectSignature(type, context, types)`:
wraps the first call signature, `undefined` when there is none. -/
def selectSignature (type : TsType) : Option NgSignature :=
  match type.sigReturns.head? with
  | some r => some (.fromChecker r)
  | none => none

/-- Model of `PipeSymbol.selectSignature(types)` for a pipe of the given
name whose `transform` method has checker type `pipeType`: selects the first
call signature, then for a single `TypeWrapper` argument special-cases the
pipe names `async` and `slice` to override the result type. -/
def pipeSelectSignature (env : CheckerEnv) (pipeName : String) (pipeType : TsType)
    (types : List NgSymbol) : Option NgSignature :=
  let signature := selectSignature pipeType
  if types.length = 1 then
    match types[0]? with
    | some (NgSymbol.typeWrapper parameterType) =>
      let resultType : Option TsType :=
        if pipeName = "async" then
          if typeWrapperName parameterType = "Observable"
              ∨ typeWrapperName parameterType = "Promise"
              ∨ typeWrapperName parameterType = "EventEmitter" then
            getTypeParameterOf parameterType (typeWrapperName parameterType)
          else
            some (env.builtin BuiltinType.Any)
        else if pipeName = "slice" then
          getTypeParameterOf parameterType "Array"
        else none
      match resultType with
      | some rt => some (.resultOverride signature rt)
      | none => signature
    | _ => signature
  else signature

/-! ## TypeScriptSymbolQuery -/

/-- Mutable state of a `TypeScriptSymbolQuery` instance: the per-instance
`typeCache` map from `BuiltinType` to the memoized built-in `Symbol`. -/
structure QueryState where
  typeCache : List (BuiltinType × NgSymbol)

/-- Model of `TypeScriptSymbolQuery.getBuiltinType(kind)`: returns the cached
wrapper or builds a `TypeWrapper` around the checker's literal type and
caches it. -/
def getBuiltinType (env : CheckerEnv) (st : QueryState) (kind : BuiltinType) :
    NgSymbol × QueryState :=
  match alookup st.typeCache kind with
  | some result => (result, st)
  | none =>
    let result := NgSymbol.typeWrapper (env.builtin kind)
    (result, { st with typeCache := alistSet st.typeCache kind result })

/-- Model of `TypeScriptSymbolQuery.getTypeUnion(...types)`: the last given
type, or the built-in `Any` when no types are given. -/
def getTypeUnion (env : CheckerEnv) (st : QueryState) (types : List NgSymbol) :
    NgSymbol × QueryState :=
  match types.getLast? with
  | some t => (t, st)
  | none => getBuiltinType env st BuiltinType.Any

/-- Model of `TypeScriptSymbolQuery.getNonNullableType(symbol)`: when the
symbol wraps a checker type and the checker supports `getNonNullableType`,
and stripping produced a different object, the stripped type is wrapped;
every other case falls through to the built-in `Any`. -/
def getNonNullableType (env : CheckerEnv) (st : QueryState) (symbol : NgSymbol) :
    NgSymbol × QueryState :=
  match symbol with
  | .typeWrapper tsType =>
    if env.hasGetNonNullableType then
      let nonNullableType := env.getNonNullableType tsType
      if nonNullableType.objId ≠ tsType.objId then
        (.typeWrapper nonNullableType, st)
      else getBuiltinType env st BuiltinType.Any
    else getBuiltinType env st BuiltinType.Any
  | .otherSymbol _ => getBuiltinType env st BuiltinType.Any

/-! ## MapSymbolTable

The mutable symbol table behind `createSymbolTable` and `mergeSymbolTable`.
Its `Symbol` entries are modelled by name plus a numeric JavaScript object
identity, because `add` locates the previous entry in the `_values` array
with `Array.prototype.indexOf` (reference equality). -/

/-- Model of a `Symbol` stored in a `MapSymbolTable` (a `DeclaredSymbol` or
any other `Symbol` object): its `name` and its object identity. -/
structure MSymbol where
  objId : Nat
  name : String
deriving DecidableEq, Repr

/-- Model of `MapSymbolTable`: the private `Map` (insertion-ordered
association list) and the private `_values` array. -/
structure MapSymbolTable where
  map : List (String × MSymbol)
  valuesArr : List MSymbol
deriving Repr

/-- Model of `MapSymbolTable.size` (the map's size). -/
def MapSymbolTable.size (t : MapSymbolTable) : Nat :=
  t.map.length

/-- Model of `MapSymbolTable.get(key)`. -/
def MapSymbolTable.get (t : MapSymbolTable) (key : String) : Option MSymbol :=
  alookup t.map key

/-- Model of `MapSymbolTable.has(key)`. -/
def MapSymbolTable.has (t : MapSymbolTable) (key : String) : Bool :=
  (alookup t.map key).isSome

/-- Model of `MapSymbolTable.add(symbol)`: when the name is already mapped,
the previous symbol's slot in `_values` is overwritten in place (located by
`indexOf`, a no-op when `indexOf` yields -1), then the map entry is set and
the new symbol is pushed onto `_values` unconditionally. -/
def MapSymbolTable.add (t : MapSymbolTable) (symbol : MSymbol) : MapSymbolTable :=
  let vals :=
    match alookup t.map symbol.name with
    | some previous =>
      match t.valuesArr.findIdx? (fun x => x = previous) with
      | some i => t.valuesArr.set i symbol
      | none => t.valuesArr
    | none => t.valuesArr
  { map := alistSet t.map symbol.name symbol, valuesArr := vals ++ [symbol] }

/-- Model of `MapSymbolTable.addAll(symbols)`. -/
def MapSymbolTable.addAll (t : MapSymbolTable) (symbols : List MSymbol) : MapSymbolTable :=
  symbols.foldl MapSymbolTable.add t

/-- Model of `MapSymbolTable.values()` (the `_values` array, not the map). -/
def MapSymbolTable.values (t : MapSymbolTable) : List MSymbol :=
  t.valuesArr

/-- The freshly constructed, empty `MapSymbolTable`. -/
def emptyMapSymbolTable : MapSymbolTable :=
  { map := [], valuesArr := [] }

/-- Model of `TypeScriptSymbolQuery.createSymbolTable(symbols)`: a new
`MapSymbolTable` filled by `addAll` (the `DeclaredSymbol` wrapping is
reflected in the `MSymbol` entries themselves). -/
def createSymbolTable (symbols : List MSymbol) : MapSymbolTable :=
  emptyMapSymbolTable.addAll symbols

/-- Model of `TypeScriptSymbolQuery.mergeSymbolTable(symbolTables)`: a new
`MapSymbolTable` into which every table's `values()` are added in order. -/
def mergeSymbolTable (symbolTables : List MapSymbolTable) : MapSymbolTable :=
  symbolTables.foldl (fun result table => result.addAll table.values) emptyMapSymbolTable

/-! ## The syntax-tree model

`ts.Node` values are modelled as a tree; the `parent` pointers of the
TypeScript AST are recovered as the ancestor path from the file's root node
to a node, nearest ancestor first.  Each node carries: its `SyntaxKind`; the
`name.text` of a property assignment (`propName`); the `name.text` of a
class declaration (`declName`); the literal `text` of string/identifier
tokens; `pos` (full start including leading trivia), `start` (`getStart()`)
and `stop` (`getEnd()`); and its children in `forEachChild` order. -/

/-- Model of the subset of `ts.SyntaxKind` distinguished by this file.
`otherToken` and `otherNode` stand for every unmodelled kind at or below,
respectively above, `SyntaxKind.LastToken` (the filter used by `spanAt`). -/
inductive SyntaxKind where
  | stringLiteral
  | noSubstitutionTemplateLiteral
  | identifier
  | propertyAssignment
  | objectLiteralExpression
  | callExpression
  | decorator
  | classDeclaration
  | sourceFile
  | otherToken
  | otherNode
deriving DecidableEq, Repr

/-- Whether the kind is at or below `ts.SyntaxKind.LastToken`: the `spanAt`
descent, which requires `node.kind > ts.SyntaxKind.LastToken`, skips these. -/
def SyntaxKind.isToken : SyntaxKind → Bool
  | .stringLiteral => true
  | .noSubstitutionTemplateLiteral => true
  | .identifier => true
  | .otherToken => true
  | _ => false

/-- Model of a `ts.Node` (see the section comment for the fields). -/
inductive Ast where
  | mk (kind : SyntaxKind) (propName : Option String) (declName : Option String)
      (text : Option String) (pos start stop : Nat) (children : List Ast)

/-- The node's `kind`. -/
def Ast.kind : Ast → SyntaxKind
  | .mk k _ _ _ _ _ _ _ => k

/-- The `name.text` of a property assignment node. -/
def Ast.propName : Ast → Option String
  | .mk _ p _ _ _ _ _ _ => p

/-- The `name.text` of a class-declaration node (absent on an unnamed
default-export class). -/
def Ast.declName : Ast → Option String
  | .mk _ _ d _ _ _ _ _ => d

/-- The `text` of a literal or identifier token. -/
def Ast.text : Ast → Option String
  | .mk _ _ _ t _ _ _ _ => t

/-- The node's `pos` (full start, including leading trivia). -/
def Ast.pos : Ast → Nat
  | .mk _ _ _ _ p _ _ _ => p

/-- The node's `getStart()`. -/
def Ast.start : Ast → Nat
  | .mk _ _ _ _ _ s _ _ => s

/-- The node's `getEnd()`. -/
def Ast.stop : Ast → Nat
  | .mk _ _ _ _ _ _ e _ => e

/-- The node's children in `forEachChild` order. -/
def Ast.children : Ast → List Ast
  | .mk _ _ _ _ _ _ _ c => c

/-- Model of `spanOf(node)`: `{start: node.getStart(), end: node.getEnd()}`. -/
def spanOf (node : Ast) : Span :=
  { start := node.start, stop := node.stop }

mutual

/-- Model of `TypeScriptServiceHost.findNode(sourceFile, position)` extended
with the ancestor path: descends into the first child whose range contains
the position (`getStart() <= position < getEnd()`), returning the deepest
such node together with its ancestors, nearest first (the chain of `parent`
pointers in the TypeScript AST). -/
def findNodePath (position : Nat) (ancestors : List Ast) : Ast → Option (Ast × List Ast)
  | .mk k pn dn tx fp s e cs =>
    if s ≤ position ∧ position < e then
      some ((findNodePathList position (Ast.mk k pn dn tx fp s e cs :: ancestors) cs).getD
        (Ast.mk k pn dn tx fp s e cs, ancestors))
    else none

/-- Companion of `findNodePath` iterating over the children in
`forEachChild` order, returning the first hit. -/
def findNodePathList (position : Nat) (ancestors : List Ast) : List Ast → Option (Ast × List Ast)
  | [] => none
  | c :: cs =>
    match findNodePath position ancestors c with
    | some r => some r
    | none => findNodePathList position ancestors cs

end

/-- Model of `TypeScriptServiceHost.findNode(sourceFile, position)` itself:
just the located node. -/
def findNode (position : Nat) (sourceFile : Ast) : Option Ast :=
  (findNodePath position [] sourceFile).map Prod.fst

/-- Model of `TypeScriptServiceHost.stringOf(node)`: the literal text of a
string literal or no-substitution template literal, `undefined` otherwise. -/
def stringOf (node : Ast) : Option String :=
  match node.kind with
  | .noSubstitutionTemplateLiteral => node.text
  | .stringLiteral => node.text
  | _ => none

/-- Model of `TypeScriptServiceHost.getTemplateClassDeclFromNode(currentToken)`
over the token's ancestor chain (nearest first): verifies in turn a property
assignment named `template`, an object literal, a call expression, a
decorator and a class declaration, yielding `missingTemplate` (both
components `undefined`) as soon as a link is absent or of the wrong kind;
on success yields the class declaration and the call target. -/
def getTemplateClassDeclFromNode (ancestors : List Ast) : Option Ast × Option Ast :=
  match ancestors with
  | [] => (none, none)
  | parentNode :: rest =>
    if parentNode.kind ≠ .propertyAssignment then (none, none)
    else if parentNode.propName.getD "" ≠ "template" then (none, none)
    else
      match rest with
      | [] => (none, none)
      | objectLit :: rest2 =>
        if objectLit.kind ≠ .objectLiteralExpression then (none, none)
        else
          match rest2 with
          | [] => (none, none)
          | callExpr :: rest3 =>
            if callExpr.kind ≠ .callExpression then (none, none)
            else
              let callTarget := callExpr.children.head?
              match rest3 with
              | [] => (none, none)
              | decorator :: rest4 =>
                if decorator.kind ≠ .decorator then (none, none)
                else
                  match rest4 with
                  | [] => (none, none)
                  | declaration :: _ =>
                    if declaration.kind ≠ .classDeclaration then (none, none)
                    else (some declaration, callTarget)

/-- Model of a `TemplateSource` as built by `getSourceFromDeclaration` for an
inline template: the script version, the template text, the span inside the
file, and the owning `StaticSymbol` as the pair (file path, class name).
The lazily computed `members`/`query` views, which consult the checker on
first access, are outside this model. -/
structure TemplateSource where
  version : String
  source : String
  span : Span
  type : String × String
deriving DecidableEq, Repr

/-- Model of `TypeScriptServiceHost.getSourceFromNode(fileName, version,
node)` with the node's ancestor chain supplied explicitly: for a string
literal or no-substitution template literal whose ancestors match the
template shape and whose class declaration is named, builds the
`TemplateSource` with the literal's span shrunk by one character at each end
and the owning `StaticSymbol` `(sourceFile.fileName, declaration.name.text)`. -/
def getSourceFromNode (fileName version : String) (node : Ast) (ancestors : List Ast) :
    Option TemplateSource :=
  match node.kind with
  | .noSubstitutionTemplateLiteral =>
    match (getTemplateClassDeclFromNode ancestors).1 with
    | some declaration =>
      match declaration.declName with
      | some className =>
        some { version := version, source := (stringOf node).getD "",
               span := shrink (spanOf node) none, type := (fileName, className) }
      | none => none
    | none => none
  | .stringLiteral =>
    match (getTemplateClassDeclFromNode ancestors).1 with
    | some declaration =>
      match declaration.declName with
      | some className =>
        some { version := version, source := (stringOf node).getD "",
               span := shrink (spanOf node) none, type := (fileName, className) }
      | none => none
    | none => none
  | _ => none

/-- Model of the inline-template path of
`TypeScriptServiceHost.getTemplateAt(fileName, position)` when
`getSourceFile(fileName)` yields the given parsed file: locates the node at
the position and delegates to `getSourceFromNode`; `null` when no node
contains the position. -/
def getTemplateAtInline (fileName version : String) (sourceFile : Ast) (position : Nat) :
    Option TemplateSource :=
  match findNodePath position [] sourceFile with
  | some (node, ancestors) => getSourceFromNode fileName version node ancestors
  | none => none

mutual

/-- Companion of `spanAt`: model of its inner `findChild(node)`, which
descends only through nodes above `ts.SyntaxKind.LastToken` whose
`pos <= position < end`. -/
def spanAtFindChild (position : Nat) : Ast → Option Ast
  | .mk k pn dn tx fp s e cs =>
    if k.isToken = false ∧ fp ≤ position ∧ position < e then
      some ((spanAtFindChildList position cs).getD (Ast.mk k pn dn tx fp s e cs))
    else none

/-- Companion of `spanAtFindChild` iterating over children in `forEachChild`
order. -/
def spanAtFindChildList (position : Nat) : List Ast → Option Ast
  | [] => none
  | c :: cs =>
    match spanAtFindChild position c with
    | some r => some r
    | none => spanAtFindChildList position cs

end

/-- Model of `spanAt(sourceFile, line, column)`: `undefined` when line or
column is `null`; otherwise converts to a character position (the external
`ts.getPositionOfLineAndCharacter` is supplied as `positionOf`) and returns
the span of the narrowest enclosing non-token node found under the file's
children. -/
def spanAt (positionOf : Nat → Nat → Nat) (sourceFile : Ast) (line column : Option Nat) :
    Option Span :=
  match line, column with
  | some l, some c =>
    let position := positionOf l c
    match spanAtFindChildList position sourceFile.children with
    | some node => some (spanOf node)
    | none => none
  | _, _ => none

/-! ## The error-collection channel and declaration collection -/

/-- Model of a value thrown by (or reported from) the metadata resolver and
stored by `collectError`: its `message` (which JavaScript may find falsy
when absent or empty) and its optional `line`/`column`. -/
structure CollectedError where
  message : Option String
  line : Option Nat
  column : Option Nat
deriving DecidableEq, Repr

/-- JavaScript truthiness of `e.message`: `undefined` and the empty string
are falsy. -/
def truthyMessage : Option String → Bool
  | some m => if m = "" then false else true
  | none => false

/-- Model of the `collectedErrors` field: `null`/unset, or an
insertion-ordered map from file path to the errors collected against it. -/
abbrev ErrorMap := Option (List (String × List CollectedError))

/-- Model of `TypeScriptServiceHost.collectError(error, filePath)`: creates
the map on first use and appends the error to the file's list. -/
def collectError (errorMap : ErrorMap) (error : CollectedError) (filePath : String) : ErrorMap :=
  let m := errorMap.getD []
  let errors := (alookup m filePath).getD []
  some (alistSet m filePath (errors ++ [error]))

/-- Model of a `DeclarationError`: the recorded message with the span
resolved from the error's line and column, or the default span. -/
structure DeclarationError where
  message : Option String
  span : Span
deriving DecidableEq, Repr

/-- Model of a `Declaration`: the owning `StaticSymbol` (file path, class
name), the declaration span (the span of the decorator call's target), the
resolved metadata when resolution succeeded (abstracted to a numeric
identifier), and the errors collected for the file. -/
structure NgDeclaration where
  type : String × String
  declarationSpan : Span
  metadata : Option Nat
  errors : List DeclarationError
deriving DecidableEq, Repr

/-- Model of `TypeScriptServiceHost.getCollectedErrors(defaultSpan,
sourceFile)`: every error recorded against the file, each given the span at
its line/column or the default span. -/
def getCollectedErrors (positionOf : Nat → Nat → Nat) (sourceFile : Ast) (errorMap : ErrorMap)
    (defaultSpan : Span) (fileName : String) : List DeclarationError :=
  match errorMap with
  | none => []
  | some m =>
    match alookup m fileName with
    | none => []
    | some errors =>
      errors.map (fun e =>
        { message := e.message,
          span := (spanAt positionOf sourceFile e.line e.column).getD defaultSpan })

/-- Outcome of asking the `CompileMetadataResolver` about a class: the
combined behaviour of `isDirective` and `getNonNormalizedDirectiveMetadata`
inside the `try` block of `getDeclarationFromNode` — not a directive,
successfully resolved metadata, or a thrown value. -/
inductive ResolveOutcome where
  | notDirective
  | directiveOk (metadata : Nat)
  | throwsError (error : CollectedError)

/-- Behaviour of the external collaborators of `getDeclarationFromNode`:
`resolve` is the metadata resolver keyed by (file path, class name), and
`typeTruthy` models the truthiness of `checker.getTypeAtLocation(target)`
keyed by the target's text. -/
structure DeclEnv where
  resolve : String → String → ResolveOutcome
  typeTruthy : String → Bool

/-- Model of the `for (const decorator of node.decorators)` loop of
`getDeclarationFromNode`: skips decorators that are not call expressions or
whose call target has no type; for a directive class builds the
`Declaration`; a thrown value with a truthy message is recorded through
`collectError` and still yields a partial `Declaration` (no metadata); a
thrown value with a falsy message is silently skipped. -/
def declaratorLoop (env : DeclEnv) (positionOf : Nat → Nat → Nat) (sourceFile : Ast)
    (fileName className : String) (errorMap : ErrorMap) :
    List Ast → Option NgDeclaration × ErrorMap
  | [] => (none, errorMap)
  | decorator :: rest =>
    match decorator.children.head? with
    | none => declaratorLoop env positionOf sourceFile fileName className errorMap rest
    | some expr =>
      if expr.kind = .callExpression then
        match expr.children.head? with
        | none => declaratorLoop env positionOf sourceFile fileName className errorMap rest
        | some target =>
          if env.typeTruthy (target.text.getD "") then
            match env.resolve fileName className with
            | .notDirective =>
              declaratorLoop env positionOf sourceFile fileName className errorMap rest
            | .directiveOk metadata =>
              let declarationSpan := spanOf target
              (some { type := (fileName, className), declarationSpan := declarationSpan,
                      metadata := some metadata,
                      errors := getCollectedErrors positionOf sourceFile errorMap
                        declarationSpan fileName },
               errorMap)
            | .throwsError e =>
              if truthyMessage e.message then
                let em := collectError errorMap e fileName
                let declarationSpan := spanOf target
                (some { type := (fileName, className), declarationSpan := declarationSpan,
                        metadata := none,
                        errors := getCollectedErrors positionOf sourceFile em
                          declarationSpan fileName },
                 em)
              else declaratorLoop env positionOf sourceFile fileName className errorMap rest
          else declaratorLoop env positionOf sourceFile fileName className errorMap rest
      else declaratorLoop env positionOf sourceFile fileName className errorMap rest

/-- Model of `TypeScriptServiceHost.getDeclarationFromNode(sourceFile,
node)`: only a decorated, named class declaration can yield a
`Declaration`; the decorators are scanned by `declaratorLoop`. -/
def getDeclarationFromNode (env : DeclEnv) (positionOf : Nat → Nat → Nat) (sourceFile : Ast)
    (fileName : String) (errorMap : ErrorMap) (node : Ast) :
    Option NgDeclaration × ErrorMap :=
  match node.kind, node.declName with
  | .classDeclaration, some className =>
    let decorators := node.children.filter (fun c => c.kind == SyntaxKind.decorator)
    if decorators.isEmpty then (none, errorMap)
    else declaratorLoop env positionOf sourceFile fileName className errorMap decorators
  | _, _ => (none, errorMap)

/-- Model of the recursive `visit` of `TypeScriptServiceHost.getDeclarations`
over a list of sibling nodes: a node yielding a `Declaration` is recorded
and not descended into; otherwise its children are visited. -/
def getDeclarationsVisit (env : DeclEnv) (positionOf : Nat → Nat → Nat) (sourceFile : Ast)
    (fileName : String) (errorMap : ErrorMap) :
    List Ast → List NgDeclaration × ErrorMap
  | [] => ([], errorMap)
  | Ast.mk k pn dn tx fp s e cs2 :: cs =>
    match getDeclarationFromNode env positionOf sourceFile fileName errorMap
        (Ast.mk k pn dn tx fp s e cs2) with
    | (some d, em1) =>
      let r := getDeclarationsVisit env positionOf sourceFile fileName em1 cs
      (d :: r.1, r.2)
    | (none, em1) =>
      let r1 := getDeclarationsVisit env positionOf sourceFile fileName em1 cs2
      let r2 := getDeclarationsVisit env positionOf sourceFile fileName r1.2 cs
      (r1.1 ++ r2.1, r2.2)

/-- Model of `TypeScriptServiceHost.getDeclarations(fileName)` for a parsed
file, with the `collectedErrors` state threaded explicitly: visits the
file's top-level nodes and returns the declarations together with the
updated error state. -/
def getDeclarations (env : DeclEnv) (positionOf : Nat → Nat → Nat) (fileName : String)
    (sourceFile : Ast) (errorMap : ErrorMap) : List NgDeclaration × ErrorMap :=
  getDeclarationsVisit env positionOf sourceFile fileName errorMap sourceFile.children

/-! ## The host state machine

`TypeScriptServiceHost` is modelled as a state record acted on by the
embedded methods.  The external TypeScript services are a `HostEnv`: the
identity of `tsService.getProgram()` (which changes whenever the project
changes), the program's source files with their current script versions,
and the directives declared by the analyzed modules (with their template
URLs already resolved), which `ensureTemplateMap` iterates over.  The
`NgAnalyzedModules` snapshot is abstracted to the identity of the program it
was computed from — precisely what the freshness properties compare.  The
`StaticSymbolResolver` is abstracted to the ordered list of file names
passed to `invalidateFile`. -/

/-- A directive declared by some analyzed module, as consumed by
`ensureTemplateMap`: its class name and, for a component with an external
template, the resolved template URL. -/
structure DirectiveInfo where
  className : String
  templateUrl : Option String
deriving DecidableEq, Repr

/-- The external host/TypeScript-service snapshot. -/
structure HostEnv where
  programId : Nat
  files : List (String × String)
  directives : List DirectiveInfo
deriving Repr

/-- The mutable fields of `TypeScriptServiceHost` that the invalidation
machinery touches.  `ssr` is `_staticSymbolResolver` (`none` when not yet
created, otherwise the accumulated `invalidateFile` log); `analyzedModules`
is `none` when unset and otherwise records the program identity the
snapshot was computed against. -/
structure ServiceHostState where
  checker : Bool
  typeCache : List Nat
  resolver : Bool
  ssr : Option (List String)
  reflector : Bool
  lastProgram : Option Nat
  modulesOutOfDate : Bool
  analyzedModules : Option Nat
  templateReferences : Option (List String)
  fileToComponent : Option (List (String × String))
  collectedErrors : ErrorMap
  fileVersions : List (String × String)
deriving Repr

/-- The state of a freshly constructed `TypeScriptServiceHost`. -/
def initialServiceHostState : ServiceHostState :=
  { checker := false, typeCache := [], resolver := false, ssr := none, reflector := false,
    lastProgram := none, modulesOutOfDate := true, analyzedModules := none,
    templateReferences := none, fileToComponent := none, collectedErrors := none,
    fileVersions := [] }

/-- Model of `TypeScriptServiceHost.clearCaches()`: drops the checker, the
type cache, the metadata resolver and the collected errors, and marks the
analyzed modules out of date.  The `analyzedModules`, `templateReferences`,
`fileToComponent` and `fileVersions` fields are deliberately not touched by
the source function. -/
def clearCaches (s : ServiceHostState) : ServiceHostState :=
  { s with
    checker := false, typeCache := [], resolver := false, collectedErrors := none,
    modulesOutOfDate := true }

/-- Model of the `for (let sourceFile of this.program.getSourceFiles())`
loop of `validate()`: returns the updated `fileVersions` map together with
the files invalidated because their version stamp changed, in program
order. -/
def visitChangedFiles (files : List (String × String)) (fileVersions : List (String × String)) :
    List (String × String) × List String :=
  match files with
  | [] => (fileVersions, [])
  | (fileName, version) :: rest =>
    if alookup fileVersions fileName ≠ some version then
      let r := visitChangedFiles rest (alistSet fileVersions fileName version)
      (r.1, fileName :: r.2)
    else visitChangedFiles rest fileVersions

/-- Model of `TypeScriptServiceHost.validate()`: when the static symbol
resolver exists and the program identity changed, clears the caches,
updates the per-file version stamps (invalidating every changed file),
removes and invalidates files no longer in the program, and records the
program identity; otherwise a no-op. -/
def validate (host : HostEnv) (s : ServiceHostState) : ServiceHostState :=
  if s.ssr.isSome ∧ s.lastProgram ≠ some host.programId then
    let s1 := clearCaches s
    let visited := visitChangedFiles host.files s1.fileVersions
    let seen := host.files.map Prod.fst
    let missing := (visited.1.map Prod.fst).filter (fun f => decide (f ∉ seen))
    { s1 with
      fileVersions := visited.1.filter (fun p => decide (p.1 ∈ seen)),
      ssr := s1.ssr.map (fun log => log ++ visited.2 ++ missing),
      lastProgram := some host.programId }
  else s

/-- Events recorded by the instrumented public operations: an invocation of
`validate()`, or a read of an already-populated lazily-cached
framework-level field. -/
inductive CacheId where
  | analyzedModulesCache
  | resolverCache
  | templateMapCache
deriving DecidableEq, Repr

/-- Event alphabet of the instrumented operations. -/
inductive Event where
  | validateCalled
  | readCache (which : CacheId)
deriving DecidableEq, Repr

/-- The `validate()` call as seen by an instrumented operation. -/
def validateE (host : HostEnv) (s : ServiceHostState) : ServiceHostState × List Event :=
  (validate host s, [Event.validateCalled])

/-- Forcing of the `staticSymbolResolver` getter: creates the resolver (with
an empty invalidation log) when absent. -/
def ssrForce (s : ServiceHostState) : ServiceHostState :=
  if s.ssr.isSome then s else { s with ssr := some [] }

/-- Model of the `resolver` getter: always runs `validate()` first, then
returns the cached `CompileMetadataResolver` or constructs it (which forces
the reflector and, through it, the static symbol resolver). -/
def resolverGetter (host : HostEnv) (s : ServiceHostState) : ServiceHostState × List Event :=
  let s1 := validate host s
  if s1.resolver then (s1, [Event.validateCalled, Event.readCache CacheId.resolverCache])
  else ({ ssrForce s1 with resolver := true, reflector := true }, [Event.validateCalled])

/-- Model of `TypeScriptServiceHost.ensureAnalyzedModules()`: returns the
cached snapshot when present; otherwise forces the static symbol resolver,
goes through the `resolver` getter (which runs `validate()` again) and
computes the snapshot against the current program. -/
def ensureAnalyzedModules (host : HostEnv) (s : ServiceHostState) :
    ServiceHostState × Nat × List Event :=
  match s.analyzedModules with
  | some m => (s, m, [Event.readCache CacheId.analyzedModulesCache])
  | none =>
    let s1 := ssrForce s
    let forced := resolverGetter host s1
    ({ forced.1 with analyzedModules := some host.programId }, host.programId, forced.2)

/-- Model of `TypeScriptServiceHost.getAnalyzedModules()`: `validate()`
followed by `ensureAnalyzedModules()`. -/
def getAnalyzedModules (host : HostEnv) (s : ServiceHostState) :
    ServiceHostState × Nat × List Event :=
  let v := validateE host s
  let e := ensureAnalyzedModules host v.1
  (e.1, e.2.1, v.2 ++ e.2.2)

/-- Model of `TypeScriptServiceHost.updateAnalyzedModules()`: `validate()`,
then, only when the modules are out of date, drops the analyzed modules,
the reflector and the template maps, recomputes the snapshot and clears the
out-of-date flag. -/
def updateAnalyzedModules (host : HostEnv) (s : ServiceHostState) :
    ServiceHostState × List Event :=
  let v := validateE host s
  if v.1.modulesOutOfDate then
    let s2 := { v.1 with
                analyzedModules := none, reflector := false,
                templateReferences := none, fileToComponent := none }
    let e := ensureAnalyzedModules host s2
    ({ e.1 with modulesOutOfDate := false }, v.2 ++ e.2.2)
  else (v.1, v.2)

/-- Model of `TypeScriptServiceHost.ensureTemplateMap()`: when either map is
missing, obtains the analyzed modules, consults the metadata resolver for
every declared directive (each access going through the `resolver` getter)
and rebuilds `fileToComponent` and `templateReferences` from the components
with external template URLs; when both maps are present it only reads
them. -/
def ensureTemplateMap (host : HostEnv) (s : ServiceHostState) :
    ServiceHostState × List Event :=
  if s.fileToComponent.isSome ∧ s.templateReferences.isSome then
    (s, [Event.readCache CacheId.templateMapCache])
  else
    let g := getAnalyzedModules host s
    let folded := host.directives.foldl
      (fun acc _ =>
        let r := resolverGetter host acc.1
        (r.1, acc.2 ++ r.2))
      (g.1, g.2.2)
    let m := host.directives.filterMap
      (fun d => d.templateUrl.map (fun url => (url, d.className)))
    ({ folded.1 with
       fileToComponent := some m,
       templateReferences := some (m.map Prod.fst) },
     folded.2)

/-- Model of `TypeScriptServiceHost.getTemplateReferences()`:
`ensureTemplateMap()` then the `templateReferences` field. -/
def getTemplateReferences (host : HostEnv) (s : ServiceHostState) :
    ServiceHostState × List String × List Event :=
  let e := ensureTemplateMap host s
  (e.1, e.1.templateReferences.getD [], e.2)

/-- Whether an instrumented operation ran `validate()` before reading any
cached framework-level state: scans the event list and requires that no
cache read precedes the first `validate()` invocation. -/
def validatedBeforeCacheRead : List Event → Bool
  | [] => true
  | Event.validateCalled :: _ => true
  | Event.readCache _ :: _ => false

/-! ## Concrete syntax trees and environments

Parsed files and collaborator behaviours used to instantiate the theorems:
a component class with an inline template literal (for the template-locator
properties), decorated classes for the declaration-collection properties,
and two host snapshots differing in program identity (an edit). -/

/-- The inline template string literal occupying offsets `[s, e)` (quotes
included). -/
def litAst (text : String) (s e : Nat) : Ast :=
  Ast.mk .stringLiteral none none (some text) s s e []

/-- The identifier `template` naming the property assignment. -/
def pnameIdAst (s : Nat) : Ast :=
  Ast.mk .identifier none none (some "template") (s - 10) (s - 10) (s - 2) []

/-- The property assignment `template: <literal>`. -/
def paAst (text : String) (s e : Nat) : Ast :=
  Ast.mk .propertyAssignment (some "template") none none (s - 10) (s - 10) e
    [pnameIdAst s, litAst text s e]

/-- The object literal holding the property assignment. -/
def olAst (text : String) (s e : Nat) : Ast :=
  Ast.mk .objectLiteralExpression none none none (s - 11) (s - 11) (e + 1) [paAst text s e]

/-- The callee identifier of the decorator call. -/
def calleeAst (s : Nat) : Ast :=
  Ast.mk .identifier none none (some "Component") (s - 21) (s - 21) (s - 12) []

/-- The decorator call `Component({...})`. -/
def ceAst (text : String) (s e : Nat) : Ast :=
  Ast.mk .callExpression none none none (s - 21) (s - 21) (e + 2)
    [calleeAst s, olAst text s e]

/-- The decorator node. -/
def decAst (text : String) (s e : Nat) : Ast :=
  Ast.mk .decorator none none none (s - 22) (s - 22) (e + 2) [ceAst text s e]

/-- The class-name identifier. -/
def cnameIdAst (className : String) (e : Nat) : Ast :=
  Ast.mk .identifier none none (some className) (e + 10) (e + 10) (e + 20) []

/-- The decorated component class declaration. -/
def cdAst (className text : String) (s e : Nat) : Ast :=
  Ast.mk .classDeclaration none (some className) none (s - 22) (s - 22) (e + 40)
    [decAst text s e, cnameIdAst className e]

/-- Parsed file containing one component class whose `template` property is
an inline string literal occupying offsets `[s, e)` (quotes included).  The
surrounding nodes are laid out left of the literal (`s` is at least 22) with
the exact chain `class → decorator → call → object literal → property
assignment "template" → string literal`; the call expression also carries
its callee identifier and the class its name identifier, neither of which
contains an offset inside the literal. -/
def componentAst (className text : String) (s e : Nat) : Ast :=
  Ast.mk .sourceFile none none none 0 0 (e + 50) [cdAst className text s e]

/-- A named class declaration carrying one decorator whose expression is a
call; only the call target's span `[targetStart, targetStop)` is consumed by
declaration collection, so the other offsets are irrelevant and set to 0. -/
def decoratedClassAst (className calleeText : String) (targetStart targetStop : Nat) : Ast :=
  Ast.mk .classDeclaration none (some className) none 0 0 0
    [Ast.mk .decorator none none none 0 0 0
      [Ast.mk .callExpression none none none 0 0 0
        [Ast.mk .identifier none none (some calleeText) targetStart targetStart targetStop []]]]

/-- Parsed file with two decorated classes (used for the error-channel
properties). -/
def twoClassFileAst (classA classB : String) (sA eA sB eB : Nat) : Ast :=
  Ast.mk .sourceFile none none none 0 0 1000
    [decoratedClassAst classA "Component" sA eA,
     decoratedClassAst classB "Component" sB eB]

/-- Parsed file with a single decorated class. -/
def oneClassFileAst (className : String) (sA eA : Nat) : Ast :=
  Ast.mk .sourceFile none none none 0 0 1000 [decoratedClassAst className "Component" sA eA]

/-- Line/column-to-position map of an empty-ish file (never consulted by the
scenarios below, whose collected errors carry no line/column). -/
def zeroPositionOf : Nat → Nat → Nat := fun _ _ => 0

/-- Resolver that throws a value whose `message` is the empty string (falsy
in JavaScript) for every class, over a checker that types every target. -/
def messagelessDeclEnv : DeclEnv :=
  { resolve := fun _ _ => .throwsError { message := some "", line := none, column := none },
    typeTruthy := fun _ => true }

/-- Host snapshot before an edit: program identity 0, one file at version 1,
one component with an external template. -/
def hostEnvA : HostEnv :=
  { programId := 0, files := [("main.ts", "1")],
    directives := [{ className := "AppComponent", templateUrl := some "app.html" }] }

/-- Host snapshot after an edit: program identity 1, the same file at
version 2. -/
def hostEnvB : HostEnv :=
  { programId := 1, files := [("main.ts", "2")],
    directives := [{ className := "AppComponent", templateUrl := some "app.html" }] }

/-- States of the service host reachable by its operations satisfy this
invariant: when the modules are marked up to date the snapshot was computed
against the recorded program, and a computed snapshot implies the static
symbol resolver exists. -/
def ServiceHostStateInv (s : ServiceHostState) : Prop :=
  (s.modulesOutOfDate = false → s.analyzedModules = s.lastProgram ∧ s.lastProgram.isSome)
  ∧ (s.analyzedModules.isSome → s.ssr.isSome)

/-! ## Spec-side predicates

Written from the specification's words (not from the code), for the
template-locator shape property: the ancestor chain must be exactly
property-assignment named "template" → object-literal → call-expression →
decorator → class-declaration. -/

/-- Whether a node kind is a candidate template literal (a string literal or
no-substitution template literal). -/
def isTemplateStringKind (k : SyntaxKind) : Bool :=
  k == SyntaxKind.stringLiteral || k == SyntaxKind.noSubstitutionTemplateLiteral

/-- The spec's ancestor-chain shape, checked on the chain nearest-first:
property-assignment named "template", object literal, call expression,
decorator, class declaration. -/
def templateChainShapeB : List Ast → Bool
  | pa :: ol :: ce :: dec :: cd :: _ =>
    pa.kind == SyntaxKind.propertyAssignment && pa.propName.getD "" == "template"
    && ol.kind == SyntaxKind.objectLiteralExpression && ce.kind == SyntaxKind.callExpression
    && dec.kind == SyntaxKind.decorator && cd.kind == SyntaxKind.classDeclaration
  | _ => false

/-- Whether the class declaration at the end of the chain carries a name
(the code additionally requires this before building a template source). -/
def chainClassIsNamed : List Ast → Bool
  | _ :: _ :: _ :: _ :: cd :: _ => cd.declName.isSome
  | _ => false

/-- Checker behaviour where non-nullable stripping is the identity (every
type already non-nullable). -/
def idCheckerEnv : CheckerEnv :=
  { builtin := fun _ => TsType.mk 0 none none [],
    getNonNullableType := fun t => t,
    hasGetNonNullableType := true }

/-- A query instance with an empty built-in-type cache. -/
def emptyQueryState : QueryState := { typeCache := [] }

/-- An arbitrary named checker type. -/
def sampleTsType : TsType := TsType.mk 7 (some "Foo") none []

/-- Resolver behaviour for the error-channel witness: in file `a.ts`, class
`A` throws a message-carrying value and class `B` resolves; in file `b.ts`,
class `C` resolves. -/
def twoFileDeclEnv : DeclEnv :=
  { resolve := fun f c =>
      if f = "a.ts" ∧ c = "A" then
        .throwsError { message := some "boom", line := none, column := none }
      else if f = "a.ts" ∧ c = "B" then .directiveOk 7
      else if f = "b.ts" ∧ c = "C" then .directiveOk 9
      else .notDirective,
    typeTruthy := fun _ => true }

/-! ## Theorems -/

theorem alookup_aoverwrite_self {α β : Type} [DecidableEq α] (l : List (α × β)) (k : α) (v : β)
    (h : (alookup l k).isSome) : alookup (aoverwrite l k v) k = some v := by
  induction l with
  | nil => simp [alookup] at h
  | cons hd tl ih =>
    by_cases hh : hd.1 = k
    · rw [aoverwrite, List.map_cons, if_pos hh, alookup, if_pos rfl]
    · rw [alookup, if_neg hh] at h
      rw [aoverwrite, List.map_cons, if_neg hh, alookup, if_neg hh]
      exact ih h

theorem alookup_aoverwrite_ne {α β : Type} [DecidableEq α] (l : List (α × β)) (k key : α) (v : β)
    (h : key ≠ k) : alookup (aoverwrite l k v) key = alookup l key := by
  induction l with
  | nil => simp [aoverwrite, alookup]
  | cons hd tl ih =>
    by_cases hh : hd.1 = k
    · rw [aoverwrite, List.map_cons, if_pos hh, alookup, alookup,
        if_neg (fun hk : hd.1 = key => h (hk.symm.trans hh)),
        if_neg (fun hk : k = key => h hk.symm)]
      exact ih
    · rw [aoverwrite, List.map_cons, if_neg hh, alookup, alookup]
      by_cases he : hd.1 = key
      · rw [if_pos he, if_pos he]
      · rw [if_neg he, if_neg he]; exact ih

theorem alookup_append_single_self {α β : Type} [DecidableEq α] (l : List (α × β)) (k : α) (v : β)
    (h : alookup l k = none) : alookup (l ++ [(k, v)]) k = some v := by
  induction l with
  | nil => simp [alookup]
  | cons hd tl ih =>
    by_cases hh : hd.1 = k
    · rw [alookup, if_pos hh] at h
      exact absurd h (by simp)
    · rw [alookup, if_neg hh] at h
      rw [List.cons_append, alookup, if_neg hh]
      exact ih h

theorem alookup_append_single_ne {α β : Type} [DecidableEq α] (l : List (α × β)) (k key : α)
    (v : β) (h : key ≠ k) : alookup (l ++ [(k, v)]) key = alookup l key := by
  induction l with
  | nil =>
    rw [List.nil_append]
    show (if k = key then some v else alookup [] key) = alookup ([] : List (α × β)) key
    rw [if_neg (fun hk : k = key => h hk.symm)]
  | cons hd tl ih =>
    rw [List.cons_append, alookup, alookup]
    by_cases he : hd.1 = key
    · rw [if_pos he, if_pos he]
    · rw [if_neg he, if_neg he]; exact ih

theorem alookup_alistSet_self {α β : Type} [DecidableEq α] (l : List (α × β)) (k : α) (v : β) :
    alookup (alistSet l k v) k = some v := by
  unfold alistSet
  by_cases h : (alookup l k).isSome
  · rw [if_pos h]; exact alookup_aoverwrite_self l k v h
  · rw [if_neg h]
    exact alookup_append_single_self l k v (Option.not_isSome_iff_eq_none.mp h)

theorem alookup_alistSet_ne {α β : Type} [DecidableEq α] (l : List (α × β)) (k key : α) (v : β)
    (h : key ≠ k) : alookup (alistSet l k v) key = alookup l key := by
  unfold alistSet
  by_cases hs : (alookup l k).isSome
  · rw [if_pos hs]; exact alookup_aoverwrite_ne l k key v h
  · rw [if_neg hs]; exact alookup_append_single_ne l k key v h

theorem alookup_isSome_iff_mem_keys {α β : Type} [DecidableEq α] (l : List (α × β)) (key : α) :
    (alookup l key).isSome ↔ key ∈ l.map Prod.fst := by
  induction l with
  | nil => simp [alookup]
  | cons hd tl ih =>
    rw [alookup]
    by_cases h : hd.1 = key
    · simp [h]
    · rw [if_neg h]
      simp only [List.map_cons, List.mem_cons]
      rw [ih]
      constructor
      · exact fun hm => Or.inr hm
      · rintro (hm | hm)
        · exact absurd hm.symm h
        · exact hm

theorem alistSet_length_of_isSome {α β : Type} [DecidableEq α] (l : List (α × β)) (k : α) (v : β)
    (h : (alookup l k).isSome) : (alistSet l k v).length = l.length := by
  unfold alistSet
  rw [if_pos h]
  simp [aoverwrite]

theorem aoverwrite_keys {α β : Type} [DecidableEq α] (l : List (α × β)) (k : α) (v : β) :
    (aoverwrite l k v).map Prod.fst = l.map Prod.fst := by
  unfold aoverwrite
  induction l with
  | nil => rfl
  | cons hd tl ih =>
    by_cases hh : hd.1 = k
    · rw [List.map_cons, if_pos hh, List.map_cons, List.map_cons]
      exact congrArg₂ List.cons hh.symm ih
    · rw [List.map_cons, if_neg hh, List.map_cons, List.map_cons]
      exact congrArg (List.cons hd.1) ih

theorem alistSet_keys {α β : Type} [DecidableEq α] (l : List (α × β)) (k : α) (v : β) :
    (alistSet l k v).map Prod.fst =
      if (alookup l k).isSome then l.map Prod.fst else l.map Prod.fst ++ [k] := by
  unfold alistSet
  by_cases h : (alookup l k).isSome
  · rw [if_pos h, if_pos h]; exact aoverwrite_keys l k v
  · rw [if_neg h, if_neg h]; simp

theorem alookup_eq_some_exists_key {α β : Type} [DecidableEq α] (l : List (α × β)) (key : α)
    (v : β) (h : alookup l key = some v) : ∃ k, (k, v) ∈ l := by
  induction l with
  | nil => simp [alookup] at h
  | cons hd tl ih =>
    rw [alookup] at h
    by_cases hh : hd.1 = key
    · rw [if_pos hh] at h
      refine ⟨hd.1, ?_⟩
      have : hd = (hd.1, v) := by
        cases hd
        simpa using h
      rw [← this]
      exact List.mem_cons_self hd tl
    · rw [if_neg hh] at h
      obtain ⟨k, hk⟩ := ih h
      exact ⟨k, List.mem_cons_of_mem hd hk⟩

theorem getBuiltinType_fst_isWrapper (env : CheckerEnv) (st : QueryState) (kind : BuiltinType)
    (hwf : ∀ p ∈ st.typeCache, ∃ t, p.2 = NgSymbol.typeWrapper t) :
    ∃ t, (getBuiltinType env st kind).1 = NgSymbol.typeWrapper t := by
  unfold getBuiltinType
  cases hl : alookup st.typeCache kind with
  | some r =>
    obtain ⟨k, hk⟩ := alookup_eq_some_exists_key st.typeCache kind r hl
    obtain ⟨t, ht⟩ := hwf (k, r) hk
    exact ⟨t, by simpa using ht⟩
  | none => exact ⟨env.builtin kind, rfl⟩

/-- C9: `TypeScriptSymbolQuery.getTypeUnion` computes no union: with at
least one argument it returns exactly the last argument unchanged, ignoring
every earlier argument, and with an empty argument list it returns the
built-in `Any` type. -/
theorem getTypeUnion_returns_last_argument :
    (∀ (env : CheckerEnv) (st : QueryState) (init : List NgSymbol) (t : NgSymbol),
      getTypeUnion env st (init ++ [t]) = (t, st))
    ∧ ∀ (env : CheckerEnv) (st : QueryState),
      getTypeUnion env st [] = getBuiltinType env st BuiltinType.Any := by
  constructor
  · intro env st init t
    simp [getTypeUnion]
  · intro env st
    rfl

/-- C6: `PipeSymbol.selectSignature`, called with exactly one `TypeWrapper`
argument, returns for the pipe named `async` a signature whose result type
is the single type parameter `T` when the argument's checker type is named
`Observable`, `Promise` or `EventEmitter` and is parameterized by `T`; for
the pipe named `slice` with an `Array` argument parameterized by `T` the
result type is likewise rewritten to the element type `T`. -/
theorem pipeSelectSignature_async_slice_unwrap :
    ∀ (env : CheckerEnv) (pipeType : TsType) (objId : Nat) (T : TsType) (sigs : List TsType),
      ((pipeSelectSignature env "async" pipeType
          [NgSymbol.typeWrapper (TsType.mk objId (some "Observable") (some [T]) sigs)]).map
          NgSignature.result = some T)
      ∧ ((pipeSelectSignature env "async" pipeType
          [NgSymbol.typeWrapper (TsType.mk objId (some "Promise") (some [T]) sigs)]).map
          NgSignature.result = some T)
      ∧ ((pipeSelectSignature env "async" pipeType
          [NgSymbol.typeWrapper (TsType.mk objId (some "EventEmitter") (some [T]) sigs)]).map
          NgSignature.result = some T)
      ∧ ((pipeSelectSignature env "slice" pipeType
          [NgSymbol.typeWrapper (TsType.mk objId (some "Array") (some [T]) sigs)]).map
          NgSignature.result = some T) := by
  intro env pipeType objId T sigs
  refine ⟨rfl, rfl, rfl, rfl⟩

/-- C8: `TypeScriptSymbolQuery.getNonNullableType` wraps the checker's
non-nullable type only when that type is a different object from the
input's underlying type; in every other case — the checker returned the
same object, the checker lacks `getNonNullableType`, or the input is not a
`TypeWrapper` — it returns the built-in `Any` symbol, not the input symbol. -/
theorem getNonNullableType_cases (env : CheckerEnv) (st : QueryState) (symbol : NgSymbol)
    (hwf : ∀ p ∈ st.typeCache, ∃ t, p.2 = NgSymbol.typeWrapper t) :
    (∀ t, symbol = NgSymbol.typeWrapper t → env.hasGetNonNullableType = true →
      (env.getNonNullableType t).objId ≠ t.objId →
      (getNonNullableType env st symbol).1 = NgSymbol.typeWrapper (env.getNonNullableType t))
    ∧ (∀ t, symbol = NgSymbol.typeWrapper t →
      (env.hasGetNonNullableType = false ∨ (env.getNonNullableType t).objId = t.objId) →
      (getNonNullableType env st symbol).1 = (getBuiltinType env st BuiltinType.Any).1)
    ∧ (∀ n, symbol = NgSymbol.otherSymbol n →
      (getNonNullableType env st symbol).1 = (getBuiltinType env st BuiltinType.Any).1
      ∧ (getNonNullableType env st symbol).1 ≠ symbol) := by
  refine ⟨?_, ?_, ?_⟩
  · rintro t rfl hfn hne
    simp [getNonNullableType, hfn, hne]
  · rintro t rfl hcase
    rcases hcase with hfn | heq
    · simp [getNonNullableType, hfn]
    · simp [getNonNullableType, heq]
  · rintro n rfl
    constructor
    · simp [getNonNullableType]
    · have hw := getBuiltinType_fst_isWrapper env st BuiltinType.Any hwf
      obtain ⟨t, ht⟩ := hw
      simp only [getNonNullableType, ht]
      intro hcontra
      exact absurd hcontra (by simp)

/-- Witness for C8: stripping the non-nullable part of an already
non-nullable wrapped type yields the built-in `Any` symbol. -/
theorem getNonNullableType_cases_witness :
    (getNonNullableType idCheckerEnv emptyQueryState (NgSymbol.typeWrapper sampleTsType)).1 =
      (getBuiltinType idCheckerEnv emptyQueryState BuiltinType.Any).1 :=
  (getNonNullableType_cases idCheckerEnv emptyQueryState
      (NgSymbol.typeWrapper sampleTsType)
      (by intro p hp; simp [emptyQueryState] at hp)).2.1
    sampleTsType rfl (Or.inr rfl)

theorem findIdx_exists_of_mem {α : Type} [DecidableEq α] (l : List α) (a : α) (h : a ∈ l) :
    ∃ i, l.findIdx? (fun x => x = a) = some i ∧ i < l.length := by
  induction l with
  | nil => simp at h
  | cons hd tl ih =>
    by_cases hh : hd = a
    · refine ⟨0, ?_, by simp⟩
      simp [List.findIdx?_cons, hh]
    · rcases List.mem_cons.mp h with hc | hc
      · exact absurd hc.symm hh
      · obtain ⟨i, hi, hlt⟩ := ih hc
        refine ⟨i + 1, ?_, by simpa using Nat.succ_lt_succ hlt⟩
        simp [List.findIdx?_cons, hh, hi]

theorem count_set_of_not_mem {α : Type} [DecidableEq α] (l : List α) (i : Nat) (a : α)
    (hi : i < l.length) (hm : a ∉ l) : (l.set i a).count a = 1 := by
  induction l generalizing i with
  | nil => simp at hi
  | cons hd tl ih =>
    have hhd : hd ≠ a := fun hc => hm (hc ▸ List.mem_cons_self hd tl)
    have htl : a ∉ tl := fun hc => hm (List.mem_cons_of_mem hd hc)
    cases i with
    | zero =>
      rw [List.set]
      rw [List.count_cons_self]
      rw [List.count_eq_zero_of_not_mem htl]
    | succ j =>
      rw [List.set]
      rw [List.count_cons_of_ne (fun hc => hhd hc.symm)]
      exact ih j (by simpa using Nat.lt_of_succ_lt_succ hi) htl

theorem mapSymbolTable_add_values_length (t : MapSymbolTable) (s : MSymbol) :
    (t.add s).valuesArr.length = t.valuesArr.length + 1 := by
  unfold MapSymbolTable.add
  cases alookup t.map s.name with
  | none => simp
  | some previous =>
    cases hfi : List.findIdx? (fun x => decide (x = previous)) t.valuesArr with
    | none => simp [hfi]
    | some i => simp [hfi]

theorem mapSymbolTable_add_lookup_isSome (t : MapSymbolTable) (s : MSymbol) (k : String) :
    (alookup (t.add s).map k).isSome ↔ (alookup t.map k).isSome ∨ k = s.name := by
  unfold MapSymbolTable.add
  by_cases hk : k = s.name
  · subst hk
    simp [alookup_alistSet_self]
  · simp [alookup_alistSet_ne t.map s.name k s hk, hk]

theorem mapSymbolTable_add_keys_nodup (t : MapSymbolTable) (s : MSymbol)
    (h : (t.map.map Prod.fst).Nodup) : ((t.add s).map.map Prod.fst).Nodup := by
  unfold MapSymbolTable.add
  rw [alistSet_keys]
  by_cases hs : (alookup t.map s.name).isSome
  · rw [if_pos hs]; exact h
  · rw [if_neg hs]
    have hnm : s.name ∉ t.map.map Prod.fst := fun hc =>
      hs ((alookup_isSome_iff_mem_keys t.map s.name).mpr hc)
    simp [List.nodup_append, h, hnm]

theorem mapSymbolTable_addAll_values_length (symbols : List MSymbol) (t : MapSymbolTable) :
    (t.addAll symbols).valuesArr.length = t.valuesArr.length + symbols.length := by
  induction symbols generalizing t with
  | nil => simp [MapSymbolTable.addAll]
  | cons hd tl ih =>
    show ((t.add hd).addAll tl).valuesArr.length = _
    rw [ih (t.add hd), mapSymbolTable_add_values_length]
    simp
    omega

theorem mapSymbolTable_addAll_lookup_isSome (symbols : List MSymbol) (t : MapSymbolTable)
    (k : String) :
    (alookup (t.addAll symbols).map k).isSome ↔
      (alookup t.map k).isSome ∨ k ∈ symbols.map MSymbol.name := by
  induction symbols generalizing t with
  | nil => simp [MapSymbolTable.addAll]
  | cons hd tl ih =>
    show (alookup ((t.add hd).addAll tl).map k).isSome ↔ _
    rw [ih (t.add hd)]
    rw [mapSymbolTable_add_lookup_isSome]
    simp only [List.map_cons, List.mem_cons]
    tauto

theorem mapSymbolTable_addAll_keys_nodup (symbols : List MSymbol) (t : MapSymbolTable)
    (h : (t.map.map Prod.fst).Nodup) : ((t.addAll symbols).map.map Prod.fst).Nodup := by
  induction symbols generalizing t with
  | nil => simpa [MapSymbolTable.addAll]
  | cons hd tl ih =>
    show (((t.add hd).addAll tl).map.map Prod.fst).Nodup
    exact ih (t.add hd) (mapSymbolTable_add_keys_nodup t hd h)

theorem mapSymbolTable_addAll_append (t : MapSymbolTable) (a b : List MSymbol) :
    t.addAll (a ++ b) = (t.addAll a).addAll b := by
  unfold MapSymbolTable.addAll
  exact List.foldl_append _ _ a b

theorem dedup_length_lt_of_not_nodup {α : Type} [DecidableEq α] (l : List α)
    (h : ¬ l.Nodup) : l.dedup.length < l.length := by
  rcases Nat.lt_or_ge l.dedup.length l.length with hlt | hge
  · exact hlt
  · exfalso
    have hsub : l.dedup.Sublist l := l.dedup_sublist
    have hle : l.dedup.length ≤ l.length := hsub.length_le
    have heq : l.dedup.length = l.length := Nat.le_antisymm hle hge
    have : l.dedup = l := hsub.eq_of_length heq
    exact h (this ▸ l.nodup_dedup)

theorem createSymbolTable_size_lt (symbols : List MSymbol)
    (h : ¬ (symbols.map MSymbol.name).Nodup) :
    (emptyMapSymbolTable.addAll symbols).size <
      (emptyMapSymbolTable.addAll symbols).valuesArr.length := by
  have hvals : (emptyMapSymbolTable.addAll symbols).valuesArr.length = symbols.length := by
    rw [mapSymbolTable_addAll_values_length]
    simp [emptyMapSymbolTable]
  have hnodup : (((emptyMapSymbolTable.addAll symbols).map).map Prod.fst).Nodup :=
    mapSymbolTable_addAll_keys_nodup symbols emptyMapSymbolTable (by simp [emptyMapSymbolTable])
  have hmemiff : ∀ k, k ∈ ((emptyMapSymbolTable.addAll symbols).map).map Prod.fst ↔
      k ∈ symbols.map MSymbol.name := by
    intro k
    rw [← alookup_isSome_iff_mem_keys]
    rw [mapSymbolTable_addAll_lookup_isSome]
    simp [emptyMapSymbolTable, alookup]
  have hfins : ((emptyMapSymbolTable.addAll symbols).map.map Prod.fst).toFinset =
      (symbols.map MSymbol.name).toFinset := by
    ext k
    simp only [List.mem_toFinset]
    exact hmemiff k
  have hlen : ((emptyMapSymbolTable.addAll symbols).map.map Prod.fst).length =
      (symbols.map MSymbol.name).dedup.length := by
    rw [← List.toFinset_card_of_nodup hnodup, hfins, List.card_toFinset]
  have hsize : (emptyMapSymbolTable.addAll symbols).size =
      (symbols.map MSymbol.name).dedup.length := by
    rw [MapSymbolTable.size, ← hlen, List.length_map]
  rw [hsize, hvals]
  calc (symbols.map MSymbol.name).dedup.length
      < (symbols.map MSymbol.name).length := dedup_length_lt_of_not_nodup _ h
    _ = symbols.length := List.length_map _ _

/-- C10: adding a symbol whose name is already present in a `MapSymbolTable`
makes `get` return the new symbol, but the new symbol then appears twice in
`values()` — the old occurrence is overwritten in place and the new symbol
is also appended — so after a duplicate-name add `size` is strictly less
than the length of `values()`, and merging symbol tables with overlapping
names yields a table whose enumeration length exceeds its size. -/
theorem mapSymbolTable_duplicate_add (t : MapSymbolTable) (s previous : MSymbol)
    (hprev : alookup t.map s.name = some previous)
    (hmem : previous ∈ t.valuesArr)
    (hnew : s ∉ t.valuesArr)
    (hsize : t.map.length ≤ t.valuesArr.length) :
    (t.add s).get s.name = some s
    ∧ (t.add s).valuesArr.count s = 2
    ∧ (t.add s).size < (t.add s).valuesArr.length
    ∧ ∀ (t1 t2 : MapSymbolTable),
        ¬ ((t1.values ++ t2.values).map MSymbol.name).Nodup →
        (mergeSymbolTable [t1, t2]).size < (mergeSymbolTable [t1, t2]).valuesArr.length := by
  refine ⟨?_, ?_, ?_, ?_⟩
  · rw [MapSymbolTable.get]
    show alookup (alistSet t.map s.name s) s.name = some s
    exact alookup_alistSet_self t.map s.name s
  · obtain ⟨i, hi, hlt⟩ := findIdx_exists_of_mem t.valuesArr previous hmem
    show (MapSymbolTable.valuesArr
      { map := alistSet t.map s.name s,
        valuesArr :=
          (match alookup t.map s.name with
            | some previous =>
              match List.findIdx? (fun x => decide (x = previous)) t.valuesArr with
              | some i => t.valuesArr.set i s
              | none => t.valuesArr
            | none => t.valuesArr) ++ [s] }).count s = 2
    rw [hprev]
    simp only [hi]
    rw [List.count_append]
    rw [count_set_of_not_mem t.valuesArr i s hlt hnew]
    simp
  · have h1 : (t.add s).size = t.map.length := by
      show (alistSet t.map s.name s).length = t.map.length
      exact alistSet_length_of_isSome t.map s.name s (by simp [hprev])
    have h2 := mapSymbolTable_add_values_length t s
    omega
  · intro t1 t2 hdup
    have hmerge : mergeSymbolTable [t1, t2] =
        emptyMapSymbolTable.addAll (t1.values ++ t2.values) := by
      rw [mapSymbolTable_addAll_append]
      rfl
    rw [hmerge]
    exact createSymbolTable_size_lt (t1.values ++ t2.values) hdup

/-- Witness for C10: duplicating the name `x` in a one-entry table. -/
theorem mapSymbolTable_duplicate_add_witness :
    ((createSymbolTable [{ objId := 1, name := "x" }]).add { objId := 2, name := "x" }).get "x" =
      some { objId := 2, name := "x" }
    ∧ ((createSymbolTable [{ objId := 1, name := "x" }]).add
        { objId := 2, name := "x" }).valuesArr.count { objId := 2, name := "x" } = 2
    ∧ ((createSymbolTable [{ objId := 1, name := "x" }]).add { objId := 2, name := "x" }).size <
      ((createSymbolTable [{ objId := 1, name := "x" }]).add
        { objId := 2, name := "x" }).valuesArr.length
    ∧ (mergeSymbolTable [createSymbolTable [{ objId := 1, name := "x" }],
        createSymbolTable [{ objId := 1, name := "x" }]]).size <
      (mergeSymbolTable [createSymbolTable [{ objId := 1, name := "x" }],
        createSymbolTable [{ objId := 1, name := "x" }]]).valuesArr.length := by
  have h := mapSymbolTable_duplicate_add (createSymbolTable [{ objId := 1, name := "x" }])
    { objId := 2, name := "x" } { objId := 1, name := "x" }
    (by decide) (by decide) (by decide) (by decide)
  exact ⟨h.1, h.2.1, h.2.2.1, h.2.2.2 _ _ (by decide)⟩

theorem getTemplateClassDecl_name_characterization (ancestors : List Ast) :
    ((getTemplateClassDeclFromNode ancestors).1.bind Ast.declName).isSome =
      (templateChainShapeB ancestors && chainClassIsNamed ancestors) := by
  rcases ancestors with _ | ⟨pa, _ | ⟨ol, _ | ⟨ce, _ | ⟨dec, _ | ⟨cd, rest⟩⟩⟩⟩⟩
  · rfl
  · by_cases h1 : pa.kind = SyntaxKind.propertyAssignment <;>
      simp [getTemplateClassDeclFromNode, templateChainShapeB, h1]
  · by_cases h1 : pa.kind = SyntaxKind.propertyAssignment <;>
      by_cases h2 : pa.propName.getD "" = "template" <;>
      simp [getTemplateClassDeclFromNode, templateChainShapeB, h1, h2]
  · by_cases h1 : pa.kind = SyntaxKind.propertyAssignment <;>
      by_cases h2 : pa.propName.getD "" = "template" <;>
      by_cases h3 : ol.kind = SyntaxKind.objectLiteralExpression <;>
      simp [getTemplateClassDeclFromNode, templateChainShapeB, h1, h2, h3]
  · by_cases h1 : pa.kind = SyntaxKind.propertyAssignment <;>
      by_cases h2 : pa.propName.getD "" = "template" <;>
      by_cases h3 : ol.kind = SyntaxKind.objectLiteralExpression <;>
      by_cases h4 : ce.kind = SyntaxKind.callExpression <;>
      simp [getTemplateClassDeclFromNode, templateChainShapeB, h1, h2, h3, h4]
  · by_cases h1 : pa.kind = SyntaxKind.propertyAssignment <;>
      by_cases h2 : pa.propName.getD "" = "template" <;>
      by_cases h3 : ol.kind = SyntaxKind.objectLiteralExpression <;>
      by_cases h4 : ce.kind = SyntaxKind.callExpression <;>
      by_cases h5 : dec.kind = SyntaxKind.decorator <;>
      by_cases h6 : cd.kind = SyntaxKind.classDeclaration <;>
      simp [getTemplateClassDeclFromNode, templateChainShapeB, chainClassIsNamed,
        h1, h2, h3, h4, h5, h6]

/-- C2: the template locator accepts a string-literal (or no-substitution
template literal) node exactly when its ancestor chain is the shape
property-assignment named `template` → object literal → call expression →
decorator → (named) class declaration; whenever any link is missing or of
the wrong kind — in particular for a string literal assigned to a property
not named `template` — `getSourceFromNode` yields absence, not an error. -/
theorem getSourceFromNode_template_chain_characterization
    (fileName version : String) (node : Ast) (ancestors : List Ast) :
    (getSourceFromNode fileName version node ancestors).isSome =
      (isTemplateStringKind node.kind
        && (templateChainShapeB ancestors && chainClassIsNamed ancestors)) := by
  have L := getTemplateClassDecl_name_characterization ancestors
  cases hnk : node.kind with
  | stringLiteral =>
    simp only [getSourceFromNode, hnk, isTemplateStringKind]
    cases hdecl : (getTemplateClassDeclFromNode ancestors).1 with
    | none =>
      rw [hdecl] at L
      simp at L
      simp
      exact L
    | some declaration =>
      cases hname : declaration.declName with
      | none =>
        rw [hdecl] at L
        simp [hname] at L
        simp [hname]
        exact L
      | some className =>
        rw [hdecl] at L
        simp [hname] at L
        simp [hname, L.1, L.2]
  | noSubstitutionTemplateLiteral =>
    simp only [getSourceFromNode, hnk, isTemplateStringKind]
    cases hdecl : (getTemplateClassDeclFromNode ancestors).1 with
    | none =>
      rw [hdecl] at L
      simp at L
      simp
      exact L
    | some declaration =>
      cases hname : declaration.declName with
      | none =>
        rw [hdecl] at L
        simp [hname] at L
        simp [hname]
        exact L
      | some className =>
        rw [hdecl] at L
        simp [hname] at L
        simp [hname, L.1, L.2]
  | identifier => simp [getSourceFromNode, hnk, isTemplateStringKind]
  | propertyAssignment => simp [getSourceFromNode, hnk, isTemplateStringKind]
  | objectLiteralExpression => simp [getSourceFromNode, hnk, isTemplateStringKind]
  | callExpression => simp [getSourceFromNode, hnk, isTemplateStringKind]
  | decorator => simp [getSourceFromNode, hnk, isTemplateStringKind]
  | classDeclaration => simp [getSourceFromNode, hnk, isTemplateStringKind]
  | sourceFile => simp [getSourceFromNode, hnk, isTemplateStringKind]
  | otherToken => simp [getSourceFromNode, hnk, isTemplateStringKind]
  | otherNode => simp [getSourceFromNode, hnk, isTemplateStringKind]

theorem findNodePath_contains (p : Nat) (anc : List Ast) (k : SyntaxKind)
    (pn dn tx : Option String) (fp s e : Nat) (cs : List Ast) (h : s ≤ p ∧ p < e) :
    findNodePath p anc (Ast.mk k pn dn tx fp s e cs) =
      some ((findNodePathList p (Ast.mk k pn dn tx fp s e cs :: anc) cs).getD
        (Ast.mk k pn dn tx fp s e cs, anc)) := by
  rw [findNodePath]
  rw [if_pos h]

theorem findNodePath_outside (p : Nat) (anc : List Ast) (k : SyntaxKind)
    (pn dn tx : Option String) (fp s e : Nat) (cs : List Ast) (h : ¬(s ≤ p ∧ p < e)) :
    findNodePath p anc (Ast.mk k pn dn tx fp s e cs) = none := by
  rw [findNodePath]
  rw [if_neg h]

theorem findNodePathList_nil (p : Nat) (anc : List Ast) :
    findNodePathList p anc [] = none := by
  rw [findNodePathList]

theorem findNodePathList_cons_none (p : Nat) (anc : List Ast) (c : Ast) (cs : List Ast)
    (h : findNodePath p anc c = none) :
    findNodePathList p anc (c :: cs) = findNodePathList p anc cs := by
  rw [findNodePathList, h]

theorem findNodePathList_cons_some (p : Nat) (anc : List Ast) (c : Ast) (cs : List Ast)
    (r : Ast × List Ast) (h : findNodePath p anc c = some r) :
    findNodePathList p anc (c :: cs) = some r := by
  rw [findNodePathList, h]

theorem findNodePath_eq (p : Nat) (anc : List Ast) (a : Ast) :
    findNodePath p anc a =
      if a.start ≤ p ∧ p < a.stop then
        some ((findNodePathList p (a :: anc) a.children).getD (a, anc))
      else none := by
  cases a with
  | mk k pn dn tx fp s e cs =>
    rw [findNodePath]
    rfl

/-- C3: for a component class with an inline template literal at offsets
`[s, e)` (quotes included), `getTemplateAt` at any offset inside the literal
returns a `TemplateSource` whose span equals the literal's span shrunk by
one character at each end — exactly the content between the quotes — and
whose owning declaration symbol is the `StaticSymbol` (file path, class
name) of the enclosing class. -/
theorem getTemplateAtInline_component_span_and_symbol
    (fileName version className text : String) (s e p : Nat)
    (hs22 : 22 ≤ s) (hsp : s ≤ p) (hpe : p < e) :
    getTemplateAtInline fileName version (componentAst className text s e) p =
      some { version := version, source := text, span := { start := s + 1, stop := e - 1 },
             type := (fileName, className) } := by
  have hlit : findNodePath p
      [paAst text s e, olAst text s e, ceAst text s e, decAst text s e,
       cdAst className text s e, componentAst className text s e] (litAst text s e) =
      some (litAst text s e,
        [paAst text s e, olAst text s e, ceAst text s e, decAst text s e,
         cdAst className text s e, componentAst className text s e]) := by
    rw [findNodePath_eq,
      if_pos (⟨hsp, hpe⟩ : (litAst text s e).start ≤ p ∧ p < (litAst text s e).stop)]
    rw [show (litAst text s e).children = [] from rfl, findNodePathList_nil]
    rfl
  have hpn : findNodePath p
      [paAst text s e, olAst text s e, ceAst text s e, decAst text s e,
       cdAst className text s e, componentAst className text s e] (pnameIdAst s) = none := by
    rw [findNodePath_eq,
      if_neg (show ¬((pnameIdAst s).start ≤ p ∧ p < (pnameIdAst s).stop) from by
        show ¬(s - 10 ≤ p ∧ p < s - 2)
        omega)]
  have hpaL : findNodePathList p
      [paAst text s e, olAst text s e, ceAst text s e, decAst text s e,
       cdAst className text s e, componentAst className text s e]
      [pnameIdAst s, litAst text s e] =
      some (litAst text s e,
        [paAst text s e, olAst text s e, ceAst text s e, decAst text s e,
         cdAst className text s e, componentAst className text s e]) := by
    rw [findNodePathList_cons_none _ _ _ _ hpn, findNodePathList_cons_some _ _ _ _ _ hlit]
  have hpa : findNodePath p
      [olAst text s e, ceAst text s e, decAst text s e, cdAst className text s e,
       componentAst className text s e] (paAst text s e) =
      some (litAst text s e,
        [paAst text s e, olAst text s e, ceAst text s e, decAst text s e,
         cdAst className text s e, componentAst className text s e]) := by
    rw [findNodePath_eq,
      if_pos (show (paAst text s e).start ≤ p ∧ p < (paAst text s e).stop from by
        show s - 10 ≤ p ∧ p < e
        omega)]
    rw [show (paAst text s e).children = [pnameIdAst s, litAst text s e] from rfl, hpaL]
    rfl
  have hol : findNodePath p
      [ceAst text s e, decAst text s e, cdAst className text s e,
       componentAst className text s e] (olAst text s e) =
      some (litAst text s e,
        [paAst text s e, olAst text s e, ceAst text s e, decAst text s e,
         cdAst className text s e, componentAst className text s e]) := by
    rw [findNodePath_eq,
      if_pos (show (olAst text s e).start ≤ p ∧ p < (olAst text s e).stop from by
        show s - 11 ≤ p ∧ p < e + 1
        omega)]
    rw [show (olAst text s e).children = [paAst text s e] from rfl,
      findNodePathList_cons_some _ _ _ _ _ hpa]
    rfl
  have hcallee : findNodePath p
      [ceAst text s e, decAst text s e, cdAst className text s e,
       componentAst className text s e] (calleeAst s) = none := by
    rw [findNodePath_eq,
      if_neg (show ¬((calleeAst s).start ≤ p ∧ p < (calleeAst s).stop) from by
        show ¬(s - 21 ≤ p ∧ p < s - 12)
        omega)]
  have hce : findNodePath p
      [decAst text s e, cdAst className text s e, componentAst className text s e]
      (ceAst text s e) =
      some (litAst text s e,
        [paAst text s e, olAst text s e, ceAst text s e, decAst text s e,
         cdAst className text s e, componentAst className text s e]) := by
    rw [findNodePath_eq,
      if_pos (show (ceAst text s e).start ≤ p ∧ p < (ceAst text s e).stop from by
        show s - 21 ≤ p ∧ p < e + 2
        omega)]
    rw [show (ceAst text s e).children = [calleeAst s, olAst text s e] from rfl,
      findNodePathList_cons_none _ _ _ _ hcallee,
      findNodePathList_cons_some _ _ _ _ _ hol]
    rfl
  have hdec : findNodePath p
      [cdAst className text s e, componentAst className text s e] (decAst text s e) =
      some (litAst text s e,
        [paAst text s e, olAst text s e, ceAst text s e, decAst text s e,
         cdAst className text s e, componentAst className text s e]) := by
    rw [findNodePath_eq,
      if_pos (show (decAst text s e).start ≤ p ∧ p < (decAst text s e).stop from by
        show s - 22 ≤ p ∧ p < e + 2
        omega)]
    rw [show (decAst text s e).children = [ceAst text s e] from rfl,
      findNodePathList_cons_some _ _ _ _ _ hce]
    rfl
  have hcd : findNodePath p [componentAst className text s e] (cdAst className text s e) =
      some (litAst text s e,
        [paAst text s e, olAst text s e, ceAst text s e, decAst text s e,
         cdAst className text s e, componentAst className text s e]) := by
    rw [findNodePath_eq,
      if_pos (show (cdAst className text s e).start ≤ p ∧ p < (cdAst className text s e).stop
        from by
        show s - 22 ≤ p ∧ p < e + 40
        omega)]
    rw [show (cdAst className text s e).children = [decAst text s e, cnameIdAst className e]
        from rfl,
      findNodePathList_cons_some _ _ _ _ _ hdec]
    rfl
  have hroot : findNodePath p [] (componentAst className text s e) =
      some (litAst text s e,
        [paAst text s e, olAst text s e, ceAst text s e, decAst text s e,
         cdAst className text s e, componentAst className text s e]) := by
    rw [findNodePath_eq,
      if_pos (show (componentAst className text s e).start ≤ p ∧
          p < (componentAst className text s e).stop from by
        show 0 ≤ p ∧ p < e + 50
        omega)]
    rw [show (componentAst className text s e).children = [cdAst className text s e] from rfl,
      findNodePathList_cons_some _ _ _ _ _ hcd]
    rfl
  show (match findNodePath p [] (componentAst className text s e) with
    | some (node, ancestors) => getSourceFromNode fileName version node ancestors
    | none => none) = _
  rw [hroot]
  rfl

/-- Witness for C3: a concrete component file with the literal at offsets
`[22, 30)` queried at offset 25. -/
theorem getTemplateAtInline_component_span_and_symbol_witness :
    getTemplateAtInline "app.ts" "1" (componentAst "AppComponent" "Hello" 22 30) 25 =
      some { version := "1", source := "Hello", span := { start := 23, stop := 29 },
             type := ("app.ts", "AppComponent") } :=
  getTemplateAtInline_component_span_and_symbol "app.ts" "1" "AppComponent" "Hello" 22 30 25
    (by decide) (by decide) (by decide)

theorem visitChangedFiles_cons (g w : String) (tl fv : List (String × String)) :
    visitChangedFiles ((g, w) :: tl) fv =
      if alookup fv g ≠ some w then
        ((visitChangedFiles tl (alistSet fv g w)).1,
          g :: (visitChangedFiles tl (alistSet fv g w)).2)
      else visitChangedFiles tl fv := by
  rw [visitChangedFiles]

theorem visitChangedFiles_lookup_not_mem (files : List (String × String))
    (fv : List (String × String)) (f : String) (h : f ∉ files.map Prod.fst) :
    alookup (visitChangedFiles files fv).1 f = alookup fv f := by
  induction files generalizing fv with
  | nil => rfl
  | cons hd tl ih =>
    obtain ⟨g, w⟩ := hd
    have hne : f ≠ g := by
      intro hc
      exact h (by simp [hc])
    have htl : f ∉ tl.map Prod.fst := by
      intro hc
      exact h (by simp [hc])
    rw [visitChangedFiles_cons]
    by_cases hch : alookup fv g ≠ some w
    · rw [if_pos hch]
      rw [ih (alistSet fv g w) htl]
      exact alookup_alistSet_ne fv g f w hne
    · rw [if_neg hch]
      exact ih fv htl

theorem visitChangedFiles_lookup_mem (files : List (String × String))
    (fv : List (String × String)) (f v : String)
    (hnodup : (files.map Prod.fst).Nodup) (hmem : (f, v) ∈ files) :
    alookup (visitChangedFiles files fv).1 f = some v := by
  induction files generalizing fv with
  | nil => simp at hmem
  | cons hd tl ih =>
    obtain ⟨g, w⟩ := hd
    have hnd := hnodup
    simp only [List.map_cons, List.nodup_cons] at hnd
    have hgtl : g ∉ tl.map Prod.fst := hnd.1
    have htlnodup : (tl.map Prod.fst).Nodup := hnd.2
    rw [visitChangedFiles_cons]
    rcases List.mem_cons.mp hmem with hhd | hmtl
    · obtain ⟨hf, hv⟩ := Prod.mk.injEq .. ▸ hhd
      subst hf
      subst hv
      by_cases hch : alookup fv f ≠ some v
      · rw [if_pos hch]
        rw [visitChangedFiles_lookup_not_mem tl (alistSet fv f v) f hgtl]
        exact alookup_alistSet_self fv f v
      · rw [if_neg hch]
        rw [visitChangedFiles_lookup_not_mem tl fv f hgtl]
        exact Decidable.not_not.mp (fun hc => hch (fun _ => hc (by tauto)))
    · have hfg : f ≠ g := by
        intro hc
        subst hc
        exact hgtl (List.mem_map_of_mem Prod.fst hmtl)
      by_cases hch : alookup fv g ≠ some w
      · rw [if_pos hch]
        exact ih (alistSet fv g w) htlnodup hmtl
      · rw [if_neg hch]
        exact ih fv htlnodup hmtl

theorem visitChangedFiles_changed_iff (files : List (String × String))
    (fv : List (String × String)) (f : String)
    (hnodup : (files.map Prod.fst).Nodup) :
    f ∈ (visitChangedFiles files fv).2 ↔
      ∃ v, (f, v) ∈ files ∧ alookup fv f ≠ some v := by
  induction files generalizing fv with
  | nil => simp [visitChangedFiles]
  | cons hd tl ih =>
    obtain ⟨g, w⟩ := hd
    have hnd := hnodup
    simp only [List.map_cons, List.nodup_cons] at hnd
    have hgtl : g ∉ tl.map Prod.fst := hnd.1
    have htlnodup : (tl.map Prod.fst).Nodup := hnd.2
    rw [visitChangedFiles_cons]
    by_cases hch : alookup fv g ≠ some w
    · rw [if_pos hch]
      by_cases hfg : f = g
      · subst hfg
        constructor
        · intro hmem2
          exact ⟨w, List.mem_cons_self _ _, hch⟩
        · intro hex
          exact List.mem_cons_self _ _
      · have hmemc : f ∈ g :: (visitChangedFiles tl (alistSet fv g w)).2 ↔
            f ∈ (visitChangedFiles tl (alistSet fv g w)).2 := by
          simp [hfg]
        rw [hmemc, ih (alistSet fv g w) htlnodup]
        constructor
        · rintro ⟨v, hv, hne⟩
          refine ⟨v, List.mem_cons_of_mem _ hv, ?_⟩
          rwa [alookup_alistSet_ne fv g f w hfg] at hne
        · rintro ⟨v, hv, hne⟩
          rcases List.mem_cons.mp hv with hhd | hmtl
          · exact absurd (congrArg Prod.fst hhd) hfg
          · refine ⟨v, hmtl, ?_⟩
            rwa [alookup_alistSet_ne fv g f w hfg]
    · rw [if_neg hch]
      have heq : alookup fv g = some w := Decidable.not_not.mp hch
      rw [ih fv htlnodup]
      constructor
      · rintro ⟨v, hv, hne⟩
        exact ⟨v, List.mem_cons_of_mem _ hv, hne⟩
      · rintro ⟨v, hv, hne⟩
        rcases List.mem_cons.mp hv with hhd | hmtl
        · obtain ⟨hf, hv2⟩ := Prod.mk.injEq .. ▸ hhd
          subst hf
          subst hv2
          exact absurd heq hne
        · exact ⟨v, hmtl, hne⟩

theorem alookup_filter_keys {β : Type} (l : List (String × β)) (seen : List String) (f : String) :
    alookup (l.filter (fun p => decide (p.1 ∈ seen))) f =
      if f ∈ seen then alookup l f else none := by
  induction l with
  | nil => simp [alookup]
  | cons hd tl ih =>
    by_cases hmem : hd.1 ∈ seen
    · rw [List.filter_cons_of_pos (by simpa using hmem)]
      by_cases hf : hd.1 = f
      · subst hf
        rw [alookup, if_pos rfl, if_pos hmem, alookup, if_pos rfl]
      · rw [alookup, if_neg hf, ih]
        by_cases hseen : f ∈ seen
        · rw [if_pos hseen, if_pos hseen, alookup, if_neg hf]
        · rw [if_neg hseen, if_neg hseen]
    · rw [List.filter_cons_of_neg (by simpa using hmem)]
      rw [ih]
      by_cases hseen : f ∈ seen
      · have hf : hd.1 ≠ f := fun hc => hmem (hc ▸ hseen)
        rw [if_pos hseen, if_pos hseen, alookup, if_neg hf]
      · rw [if_neg hseen, if_neg hseen]

/-- C4: when `validate()` observes a changed program identity (with the
static symbol resolver in existence), every file of the current program
whose version stamp differs from the recorded one is invalidated in the
static symbol resolver and its new stamp recorded, every previously known
file absent from the program is removed from the version map and also
invalidated, exactly those files are newly invalidated, and the
error-collection channel is cleared; when the program identity is
unchanged, `validate()` changes nothing. -/
theorem validate_invalidation_spec (host : HostEnv) (s : ServiceHostState) (log0 : List String)
    (hssr : s.ssr = some log0)
    (hprog : s.lastProgram ≠ some host.programId)
    (hnodup : (host.files.map Prod.fst).Nodup) :
    (∀ f v, (f, v) ∈ host.files → alookup (validate host s).fileVersions f = some v)
    ∧ (∀ f, f ∉ host.files.map Prod.fst → alookup (validate host s).fileVersions f = none)
    ∧ (∃ newInv, (validate host s).ssr = some (log0 ++ newInv)
        ∧ ∀ f, (f ∈ newInv ↔
            (∃ v, (f, v) ∈ host.files ∧ alookup s.fileVersions f ≠ some v)
            ∨ (f ∈ s.fileVersions.map Prod.fst ∧ f ∉ host.files.map Prod.fst)))
    ∧ (validate host s).collectedErrors = none
    ∧ ∀ (host2 : HostEnv) (s2 : ServiceHostState),
        s2.lastProgram = some host2.programId → validate host2 s2 = s2 := by
  have hcond : s.ssr.isSome ∧ s.lastProgram ≠ some host.programId := ⟨by rw [hssr]; rfl, hprog⟩
  have hval : validate host s =
      { clearCaches s with
        fileVersions := (visitChangedFiles host.files s.fileVersions).1.filter
          (fun p => decide (p.1 ∈ host.files.map Prod.fst)),
        ssr := some (log0 ++ (visitChangedFiles host.files s.fileVersions).2 ++
          ((visitChangedFiles host.files s.fileVersions).1.map Prod.fst).filter
            (fun f => decide (f ∉ host.files.map Prod.fst))),
        lastProgram := some host.programId } := by
    unfold validate
    rw [if_pos hcond]
    simp only [clearCaches, hssr]
    rfl
  refine ⟨?_, ?_, ?_, ?_, ?_⟩
  · intro f v hm
    rw [hval]
    show alookup ((visitChangedFiles host.files s.fileVersions).1.filter
      (fun p => decide (p.1 ∈ host.files.map Prod.fst))) f = some v
    rw [alookup_filter_keys]
    rw [if_pos (List.mem_map_of_mem Prod.fst hm)]
    exact visitChangedFiles_lookup_mem host.files s.fileVersions f v hnodup hm
  · intro f hnm
    rw [hval]
    show alookup ((visitChangedFiles host.files s.fileVersions).1.filter
      (fun p => decide (p.1 ∈ host.files.map Prod.fst))) f = none
    rw [alookup_filter_keys]
    rw [if_neg hnm]
  · refine ⟨(visitChangedFiles host.files s.fileVersions).2 ++
      ((visitChangedFiles host.files s.fileVersions).1.map Prod.fst).filter
        (fun f => decide (f ∉ host.files.map Prod.fst)), ?_, ?_⟩
    · rw [hval]
      show some (log0 ++ (visitChangedFiles host.files s.fileVersions).2 ++
        ((visitChangedFiles host.files s.fileVersions).1.map Prod.fst).filter
          (fun f => decide (f ∉ host.files.map Prod.fst))) = _
      rw [List.append_assoc]
    · intro f
      rw [List.mem_append]
      rw [visitChangedFiles_changed_iff host.files s.fileVersions f hnodup]
      rw [List.mem_filter]
      simp only [decide_eq_true_eq]
      constructor
      · rintro (h | ⟨hk, hn⟩)
        · exact Or.inl h
        · refine Or.inr ⟨?_, hn⟩
          have hks := (alookup_isSome_iff_mem_keys
            (visitChangedFiles host.files s.fileVersions).1 f).mpr hk
          rw [visitChangedFiles_lookup_not_mem host.files s.fileVersions f hn] at hks
          exact (alookup_isSome_iff_mem_keys s.fileVersions f).mp hks
      · rintro (h | ⟨hk, hn⟩)
        · exact Or.inl h
        · refine Or.inr ⟨?_, hn⟩
          have hks := (alookup_isSome_iff_mem_keys s.fileVersions f).mpr hk
          rw [← visitChangedFiles_lookup_not_mem host.files s.fileVersions f hn] at hks
          exact (alookup_isSome_iff_mem_keys
            (visitChangedFiles host.files s.fileVersions).1 f).mp hks
  · rw [hval]
    rfl
  · intro host2 s2 h
    unfold validate
    rw [if_neg (fun hc => hc.2 h)]

/-- Witness for C4: a host with one changed file and one vanished file. -/
theorem validate_invalidation_spec_witness :
    alookup (validate hostEnvB
      { initialServiceHostState with
        ssr := some [], lastProgram := some 0,
        fileVersions := [("main.ts", "1"), ("old.ts", "3")] }).fileVersions "main.ts" =
      some "2"
    ∧ alookup (validate hostEnvB
      { initialServiceHostState with
        ssr := some [], lastProgram := some 0,
        fileVersions := [("main.ts", "1"), ("old.ts", "3")] }).fileVersions "old.ts" = none
    ∧ (validate hostEnvB
      { initialServiceHostState with
        ssr := some [], lastProgram := some 0,
        fileVersions := [("main.ts", "1"), ("old.ts", "3")] }).collectedErrors = none := by
  have h := validate_invalidation_spec hostEnvB
    { initialServiceHostState with
      ssr := some [], lastProgram := some 0,
      fileVersions := [("main.ts", "1"), ("old.ts", "3")] } []
    rfl (by decide) (by decide)
  exact ⟨h.1 "main.ts" "2" (by decide), h.2.1 "old.ts" (by decide), h.2.2.2.1⟩

theorem validate_noop_of_same (host : HostEnv) (s : ServiceHostState)
    (h : s.lastProgram = some host.programId) : validate host s = s := by
  unfold validate
  rw [if_neg (fun hc => hc.2 h)]

theorem validate_eq_or_lastProgram (host : HostEnv) (s : ServiceHostState) :
    validate host s = s ∨ (validate host s).lastProgram = some host.programId := by
  unfold validate
  split
  · right; rfl
  · left; rfl

theorem validate_eq_or_modulesOutOfDate (host : HostEnv) (s : ServiceHostState) :
    validate host s = s ∨ (validate host s).modulesOutOfDate = true := by
  unfold validate
  split
  · right; rfl
  · left; rfl

theorem validate_analyzedModules (host : HostEnv) (s : ServiceHostState) :
    (validate host s).analyzedModules = s.analyzedModules := by
  unfold validate
  split
  · rfl
  · rfl

theorem validate_lastProgram_of_ssr (host : HostEnv) (s : ServiceHostState)
    (hssr : s.ssr.isSome = true) : (validate host s).lastProgram = some host.programId := by
  unfold validate
  by_cases hc : s.ssr.isSome = true ∧ s.lastProgram ≠ some host.programId
  · rw [if_pos hc]
  · rw [if_neg hc]
    rcases Decidable.not_and_iff_or_not.mp hc with h1 | h2
    · exact absurd hssr h1
    · exact Decidable.not_not.mp h2

theorem ssrForce_ssr_isSome (s : ServiceHostState) : (ssrForce s).ssr.isSome = true := by
  unfold ssrForce
  by_cases h : s.ssr.isSome = true
  · rw [if_pos h]; exact h
  · rw [if_neg h]
    rfl

theorem ssrForce_lastProgram (s : ServiceHostState) : (ssrForce s).lastProgram = s.lastProgram := by
  unfold ssrForce
  split
  · rfl
  · rfl

theorem resolverGetter_lastProgram (host : HostEnv) (s : ServiceHostState)
    (hssr : s.ssr.isSome = true) :
    (resolverGetter host s).1.lastProgram = some host.programId := by
  unfold resolverGetter
  by_cases hres : (validate host s).resolver = true
  · rw [if_pos hres]
    exact validate_lastProgram_of_ssr host s hssr
  · rw [if_neg hres]
    show (ssrForce (validate host s)).lastProgram = some host.programId
    rw [ssrForce_lastProgram]
    exact validate_lastProgram_of_ssr host s hssr

theorem ensureAnalyzedModules_hit (host : HostEnv) (s : ServiceHostState) (m : Nat)
    (h : s.analyzedModules = some m) :
    ensureAnalyzedModules host s = (s, m, [Event.readCache CacheId.analyzedModulesCache]) := by
  unfold ensureAnalyzedModules
  rw [h]

theorem ensureAnalyzedModules_miss (host : HostEnv) (s : ServiceHostState)
    (h : s.analyzedModules = none) :
    ensureAnalyzedModules host s =
      ({ (resolverGetter host (ssrForce s)).1 with analyzedModules := some host.programId },
        host.programId, (resolverGetter host (ssrForce s)).2) := by
  unfold ensureAnalyzedModules
  rw [h]

theorem getAnalyzedModules_state_analyzed (host : HostEnv) (s : ServiceHostState) :
    (getAnalyzedModules host s).1.analyzedModules = some (getAnalyzedModules host s).2.1 := by
  show (ensureAnalyzedModules host (validate host s)).1.analyzedModules =
    some (ensureAnalyzedModules host (validate host s)).2.1
  cases h : (validate host s).analyzedModules with
  | some m =>
    rw [ensureAnalyzedModules_hit host (validate host s) m h]
    exact h
  | none =>
    rw [ensureAnalyzedModules_miss host (validate host s) h]

theorem getAnalyzedModules_result_of_fresh (host : HostEnv) (s : ServiceHostState)
    (ha : s.analyzedModules = some host.programId)
    (hl : s.lastProgram = some host.programId) :
    (getAnalyzedModules host s).2.1 = host.programId := by
  show (ensureAnalyzedModules host (validate host s)).2.1 = host.programId
  rw [validate_noop_of_same host s hl]
  rw [ensureAnalyzedModules_hit host s host.programId ha]

/-- Counterexample for C1: a first query computes the snapshot against
program 0; the program then changes identity (and the file's version stamp
advances), yet the next `getAnalyzedModules()` still returns the snapshot
computed against program 0 — `validate()` marks the modules out of date but
`ensureAnalyzedModules()` returns the surviving `analyzedModules` field. -/
theorem getAnalyzedModules_stale_after_program_change :
    (getAnalyzedModules hostEnvA initialServiceHostState).2.1 = 0
    ∧ (getAnalyzedModules hostEnvB (getAnalyzedModules hostEnvA initialServiceHostState).1).2.1 = 0
    ∧ hostEnvB.programId = 1 := by
  refine ⟨rfl, rfl, rfl⟩

/-- C1 (amended): two back-to-back `getAnalyzedModules()` queries return the
identical snapshot, and after `updateAnalyzedModules()` runs, a query
returns the snapshot computed against the current program; the freshness
guarantee holds at the `updateAnalyzedModules` boundary, not at
`getAnalyzedModules` itself. -/
theorem analyzedModules_back_to_back_and_update_freshness
    (host : HostEnv) (s : ServiceHostState) (hinv : ServiceHostStateInv s) :
    (getAnalyzedModules host (getAnalyzedModules host s).1).2.1 =
      (getAnalyzedModules host s).2.1
    ∧ (getAnalyzedModules host (updateAnalyzedModules host s).1).2.1 = host.programId := by
  constructor
  · have h1 := getAnalyzedModules_state_analyzed host s
    show (ensureAnalyzedModules host (validate host (getAnalyzedModules host s).1)).2.1 = _
    rw [ensureAnalyzedModules_hit host (validate host (getAnalyzedModules host s).1)
      (getAnalyzedModules host s).2.1 (by rw [validate_analyzedModules]; exact h1)]
  · by_cases hb : (validate host s).modulesOutOfDate = true
    · have hu : (updateAnalyzedModules host s).1 =
          { (ensureAnalyzedModules host
            { validate host s with
              analyzedModules := none, reflector := false,
              templateReferences := none, fileToComponent := none }).1 with
            modulesOutOfDate := false } := by
        unfold updateAnalyzedModules validateE
        show (if (validate host s).modulesOutOfDate = true then _ else _ :
          ServiceHostState × List Event).1 = _
        rw [if_pos hb]
      rw [hu]
      rw [ensureAnalyzedModules_miss host
        { validate host s with
          analyzedModules := none, reflector := false,
          templateReferences := none, fileToComponent := none } rfl]
      have hssr2 : (ssrForce
          { validate host s with
            analyzedModules := none, reflector := false,
            templateReferences := none, fileToComponent := none }).ssr.isSome = true :=
        ssrForce_ssr_isSome _
      have hlp := resolverGetter_lastProgram host
        (ssrForce
          { validate host s with
            analyzedModules := none, reflector := false,
            templateReferences := none, fileToComponent := none })
        hssr2
      exact getAnalyzedModules_result_of_fresh host _ rfl hlp
    · have hveq : validate host s = s := by
        rcases validate_eq_or_modulesOutOfDate host s with h | h
        · exact h
        · exact absurd h hb
      have hmod : s.modulesOutOfDate = false := by
        rw [← hveq]
        cases hmv : (validate host s).modulesOutOfDate
        · rfl
        · exact absurd hmv hb
      obtain ⟨hinv1, hinv2⟩ := hinv
      obtain ⟨hae, hls⟩ := hinv1 hmod
      have hssr : s.ssr.isSome = true := hinv2 (by rw [hae]; exact hls)
      have hlast : s.lastProgram = some host.programId := by
        by_cases hl : s.lastProgram = some host.programId
        · exact hl
        · exfalso
          have hcond : s.ssr.isSome = true ∧ s.lastProgram ≠ some host.programId := ⟨hssr, hl⟩
          have : (validate host s).modulesOutOfDate = true := by
            unfold validate
            rw [if_pos hcond]
            rfl
          exact hb this
      have hu : (updateAnalyzedModules host s).1 = s := by
        unfold updateAnalyzedModules validateE
        show (if (validate host s).modulesOutOfDate = true then _ else _ :
          ServiceHostState × List Event).1 = _
        rw [if_neg hb]
        exact hveq
      rw [hu]
      exact getAnalyzedModules_result_of_fresh host s (by rw [hae, hlast]) hlast

/-- Witness for C1 (amended): a fresh host queried against program 0. -/
theorem analyzedModules_back_to_back_and_update_freshness_witness :
    (getAnalyzedModules hostEnvA
      (getAnalyzedModules hostEnvA initialServiceHostState).1).2.1 =
      (getAnalyzedModules hostEnvA initialServiceHostState).2.1
    ∧ (getAnalyzedModules hostEnvA
      (updateAnalyzedModules hostEnvA initialServiceHostState).1).2.1 = hostEnvA.programId :=
  analyzedModules_back_to_back_and_update_freshness hostEnvA initialServiceHostState
    (by
      constructor
      · intro h
        simp [initialServiceHostState] at h
      · intro h
        simp [initialServiceHostState] at h)

theorem getAnalyzedModules_log_head (host : HostEnv) (s : ServiceHostState) :
    ∃ rest, (getAnalyzedModules host s).2.2 = Event.validateCalled :: rest := by
  exact ⟨(ensureAnalyzedModules host (validate host s)).2.2, rfl⟩

theorem updateAnalyzedModules_log_head (host : HostEnv) (s : ServiceHostState) :
    ∃ rest, (updateAnalyzedModules host s).2 = Event.validateCalled :: rest := by
  unfold updateAnalyzedModules validateE
  by_cases hb : (validate host s).modulesOutOfDate = true
  · refine ⟨(ensureAnalyzedModules host
      { validate host s with
        analyzedModules := none, reflector := false,
        templateReferences := none, fileToComponent := none }).2.2, ?_⟩
    show (if (validate host s).modulesOutOfDate = true then _ else _ :
      ServiceHostState × List Event).2 = _
    rw [if_pos hb]
    rfl
  · refine ⟨[], ?_⟩
    show (if (validate host s).modulesOutOfDate = true then _ else _ :
      ServiceHostState × List Event).2 = _
    rw [if_neg hb]

/-- Counterexample for C5: after an initial `getTemplateReferences()` has
populated the template maps, a later `getTemplateReferences()` issued
against a changed program reads the cached template map and returns without
ever invoking `validate()` — its event log is a single cache read — so
`validate()` is not invoked at the start of every public entry point. -/
theorem getTemplateReferences_reads_cache_without_validate :
    (getTemplateReferences hostEnvB
      (getTemplateReferences hostEnvA initialServiceHostState).1).2.2 =
      [Event.readCache CacheId.templateMapCache]
    ∧ validatedBeforeCacheRead [Event.readCache CacheId.templateMapCache] = false := by
  refine ⟨rfl, rfl⟩

/-- C5 (amended): `validate()` is idempotent — a second invocation against
the same host snapshot is a no-op — and `getAnalyzedModules()` and
`updateAnalyzedModules()` do invoke `validate()` before touching any cached
framework-level state; the remaining public entry points may read cached
framework state without invoking `validate()` first. -/
theorem validate_idempotent_and_analyzed_modules_validate_first :
    (∀ (host : HostEnv) (s : ServiceHostState),
      validate host (validate host s) = validate host s)
    ∧ (∀ (host : HostEnv) (s : ServiceHostState),
      validatedBeforeCacheRead (getAnalyzedModules host s).2.2 = true)
    ∧ (∀ (host : HostEnv) (s : ServiceHostState),
      validatedBeforeCacheRead (updateAnalyzedModules host s).2 = true) := by
  refine ⟨?_, ?_, ?_⟩
  · intro host s
    rcases validate_eq_or_lastProgram host s with h | h
    · rw [h]
      exact h
    · exact validate_noop_of_same host (validate host s) h
  · intro host s
    obtain ⟨rest, hr⟩ := getAnalyzedModules_log_head host s
    rw [hr]
    rfl
  · intro host s
    obtain ⟨rest, hr⟩ := updateAnalyzedModules_log_head host s
    rw [hr]
    rfl

/-- Counterexample for C7: when metadata resolution throws a value whose
`message` is falsy (here the empty string), `getDeclarations` records
nothing in the error collection and returns no `Declaration` for the class
at all — the failure is silently swallowed rather than surfaced as data. -/
theorem messageless_resolution_error_yields_no_declaration :
    getDeclarations messagelessDeclEnv zeroPositionOf "app.ts"
      (oneClassFileAst "AppComponent" 10 20) none = ([], none) := by
  simp [getDeclarations, oneClassFileAst, decoratedClassAst, getDeclarationsVisit,
    getDeclarationFromNode, declaratorLoop, messagelessDeclEnv, truthyMessage, Ast.kind,
    Ast.declName, Ast.children, Ast.text]

/-- C7 (amended): metadata-resolution failures never propagate as
exceptions; a thrown value carrying a truthy message is recorded in the
per-file error collection and a partial `Declaration` for the class (with
the file's collected errors attached at a best-effort span) is still
returned, and declarations for sibling classes and for other files are
still produced — but a thrown value with a falsy message yields no record
and no `Declaration` for that class. -/
theorem resolution_errors_recorded_and_analysis_continues
    (env : DeclEnv) (positionOf : Nat → Nat → Nat) (f1 f2 msg : String)
    (nA nB nC : String) (mB mC : Nat) (sA eA sB eB sC eC : Nat)
    (hmsg : msg ≠ "")
    (hA : env.resolve f1 nA = ResolveOutcome.throwsError
      { message := some msg, line := none, column := none })
    (hB : env.resolve f1 nB = ResolveOutcome.directiveOk mB)
    (hC : env.resolve f2 nC = ResolveOutcome.directiveOk mC)
    (hT : env.typeTruthy "Component" = true)
    (hf : f2 ≠ f1) :
    getDeclarations env positionOf f1 (twoClassFileAst nA nB sA eA sB eB) none =
      ([{ type := (f1, nA), declarationSpan := { start := sA, stop := eA }, metadata := none,
          errors := [{ message := some msg, span := { start := sA, stop := eA } }] },
        { type := (f1, nB), declarationSpan := { start := sB, stop := eB }, metadata := some mB,
          errors := [{ message := some msg, span := { start := sB, stop := eB } }] }],
       some [(f1, [{ message := some msg, line := none, column := none }])])
    ∧ getDeclarations env positionOf f2 (oneClassFileAst nC sC eC)
        (some [(f1, [{ message := some msg, line := none, column := none }])]) =
      ([{ type := (f2, nC), declarationSpan := { start := sC, stop := eC }, metadata := some mC,
          errors := [] }],
       some [(f1, [{ message := some msg, line := none, column := none }])]) := by
  have hf2 : f1 ≠ f2 := Ne.symm hf
  constructor
  · simp only [getDeclarations, twoClassFileAst, oneClassFileAst, decoratedClassAst,
      getDeclarationsVisit, getDeclarationFromNode, declaratorLoop, Ast.kind, Ast.declName,
      Ast.children, Ast.text, Ast.start, Ast.stop, spanOf, List.filter, List.isEmpty,
      List.head?, hA, hB, hT, truthyMessage, hmsg, collectError, getCollectedErrors,
      alookup, alistSet, aoverwrite, spanAt, Option.getD, List.map, if_true, if_false]
    simp [alookup, hmsg]
  · simp only [getDeclarations, oneClassFileAst, decoratedClassAst,
      getDeclarationsVisit, getDeclarationFromNode, declaratorLoop, Ast.kind, Ast.declName,
      Ast.children, Ast.text, Ast.start, Ast.stop, spanOf, List.filter, List.isEmpty,
      List.head?, hC, hT, truthyMessage, collectError, getCollectedErrors,
      alookup, alistSet, aoverwrite, spanAt, Option.getD, List.map, if_true, if_false]
    simp [alookup, hf2]

/-- Witness for C7 (amended): the two-file scenario at concrete inputs. -/
theorem resolution_errors_recorded_and_analysis_continues_witness :
    getDeclarations twoFileDeclEnv zeroPositionOf "a.ts" (twoClassFileAst "A" "B" 1 2 3 4) none =
      ([{ type := ("a.ts", "A"), declarationSpan := { start := 1, stop := 2 }, metadata := none,
          errors := [{ message := some "boom", span := { start := 1, stop := 2 } }] },
        { type := ("a.ts", "B"), declarationSpan := { start := 3, stop := 4 },
          metadata := some 7,
          errors := [{ message := some "boom", span := { start := 3, stop := 4 } }] }],
       some [("a.ts", [{ message := some "boom", line := none, column := none }])])
    ∧ getDeclarations twoFileDeclEnv zeroPositionOf "b.ts" (oneClassFileAst "C" 5 6)
        (some [("a.ts", [{ message := some "boom", line := none, column := none }])]) =
      ([{ type := ("b.ts", "C"), declarationSpan := { start := 5, stop := 6 },
          metadata := some 9, errors := [] }],
       some [("a.ts", [{ message := some "boom", line := none, column := none }])]) :=
  resolution_errors_recorded_and_analysis_continues twoFileDeclEnv zeroPositionOf
    "a.ts" "b.ts" "boom" "A" "B" "C" 7 9 1 2 3 4 5 6
    (by decide) rfl rfl rfl rfl (by decide)
